import Mathlib

/-!
Shallow embedding of the task-distribution and agent-lifecycle core of the
repository (src/core/base_agent.py, src/communication/message_broker.py,
src/orchestration/orchestrator.py), together with theorems settling the
frozen claims about it.

Conventions of the embedding:
* Python dicts are insertion-ordered association lists `List (String × α)`
  with first-match lookup; `aupdate` replaces the first binding in place or
  appends a new one at the end, `aerase` removes the key (dict keys are
  unique in every reachable state, so removing all occurrences coincides
  with Python `del`).
* Python `Any` payloads (message content values, task metadata values,
  results) are the JSON-like `Value` type.
* Timestamps are abstract `Nat` ticks supplied by the caller; generated
  uuids are explicit `String` arguments.
* Callbacks registered with the broker are opaque `Nat` tokens; an
  in-memory delivery is recorded as the pair (token, message).
* `asyncio` interleaving is not modelled: each handler runs to completion,
  which matches the single-threaded cooperative scheduling of the source.
-/

set_option linter.unusedVariables false

namespace DevTeam

/-- JSON-like values standing for the dynamically-typed payloads
(`Dict[str, Any]`, task results, metadata entries) of the source. -/
inductive Value where
  | s : String → Value
  | n : Int → Value
  | b : Bool → Value
  | null : Value
  | arr : List Value → Value
  | dict : List (String × Value) → Value

/-- First-match lookup in an insertion-ordered association list
(Python `d[k]` / `d.get(k)`). -/
def alookup {α : Type} : List (String × α) → String → Option α
  | [], _ => none
  | p :: ps, k => if p.1 = k then some p.2 else alookup ps k

/-- Python `d[k] = v`: replace the binding in place if the key is present,
otherwise append it at the end (dict insertion order). -/
def aupdate {α : Type} : List (String × α) → String → α → List (String × α)
  | [], k, v => [(k, v)]
  | p :: ps, k, v => if p.1 = k then (k, v) :: ps else p :: aupdate ps k v

/-- Python `del d[k]`: remove the key.  Keys are unique in reachable
states, so removing every occurrence coincides with deleting the one
binding. -/
def aerase {α : Type} : List (String × α) → String → List (String × α)
  | [], _ => []
  | p :: ps, k => if p.1 = k then aerase ps k else p :: aerase ps k

/-- Key list of an association list (Python `d.keys()`). -/
def akeys {α : Type} (l : List (String × α)) : List String := l.map Prod.fst

/-- Containment of one character list in another, scanning left to right. -/
def charsContain (needle : List Char) : List Char → Bool
  | [] => needle.isEmpty
  | c :: rest => needle.isPrefixOf (c :: rest) || charsContain needle rest

/-- Python `needle in haystack` on strings (substring containment). -/
def strContains (haystack needle : String) : Bool :=
  charsContain needle.toList haystack.toList

/-- Lifecycle states of `AgentState` in src/core/base_agent.py. -/
inductive AgentState where
  | idle | working | waiting | error | offline
deriving DecidableEq, Repr

/-- String value of each `AgentState` member. -/
def AgentState.value : AgentState → String
  | .idle => "idle"
  | .working => "working"
  | .waiting => "waiting"
  | .error => "error"
  | .offline => "offline"

/-- Capability tags of `AgentCapability` in src/core/base_agent.py. -/
inductive AgentCapability where
  | code_generation | code_review | testing | ui_design
  | architecture | project_management | documentation | deployment
deriving DecidableEq, Repr

/-- String value of each `AgentCapability` member. -/
def AgentCapability.value : AgentCapability → String
  | .code_generation => "code_generation"
  | .code_review => "code_review"
  | .testing => "testing"
  | .ui_design => "ui_design"
  | .architecture => "architecture"
  | .project_management => "project_management"
  | .documentation => "documentation"
  | .deployment => "deployment"

/-- The `Message` pydantic model of src/core/base_agent.py.  The generated
uuid `id` and the `timestamp` are explicit data here. -/
structure Message where
  id : String := ""
  sender_id : String
  receiver_id : Option String := none
  message_type : String
  content : List (String × Value)
  timestamp : Nat := 0
  requires_response : Bool := false
  correlation_id : Option String := none

/-- The `Task` pydantic model of src/core/base_agent.py. -/
structure Task where
  id : String
  title : String := ""
  description : String := ""
  assignee_id : Option String := none
  status : String := "pending"
  priority : Int := 1
  dependencies : List String := []
  created_at : Nat := 0
  completed_at : Option Nat := none
  result : Option Value := none
  metadata : List (String × Value) := []

/-- Serialization `task.dict()` used when a task is embedded in message
content. -/
def Task.dictV (t : Task) : Value :=
  .dict [("id", .s t.id), ("title", .s t.title), ("description", .s t.description),
    ("assignee_id", match t.assignee_id with | some a => .s a | none => .null),
    ("status", .s t.status), ("priority", .n t.priority),
    ("dependencies", .arr (t.dependencies.map .s)),
    ("created_at", .n t.created_at),
    ("completed_at", match t.completed_at with | some c => .n c | none => .null),
    ("result", (t.result).getD .null),
    ("metadata", .dict t.metadata)]

namespace MessageBroker

/-- State of `MessageBroker` (src/communication/message_broker.py).
`redis_connected` stands for `self.redis_client is not None`; the
redis-side effects (publishes, pubsub subscriptions, stored lists, queues)
are recorded in dedicated fields so that both code paths stay visible.
In-memory callback invocations are recorded in `delivered`. -/
structure BrokerSt where
  redis_connected : Bool := false
  subscribers : List (String × List Nat) := []
  agent_channels : List (String × String) := []
  pubsub_channels : List String := []
  redis_published : List (String × Message) := []
  redis_store : List (String × List Message) := []
  redis_queues : List (String × List Value) := []
  delivered : List (Nat × Message) := []
  error_logs : List String := []
  info_logs : List String := []
  warning_logs : List String := []

/-- Lines 23-37 `connect`: try to reach redis; on failure log the error and
the fallback notice and leave `redis_client = None`.  The `except` clause
swallows the exception, so the call never raises. -/
def connect (st : BrokerSt) (redis_reachable : Bool) : BrokerSt :=
  if redis_reachable then
    { st with redis_connected := true,
              info_logs := st.info_logs ++ ["Connected to Redis message broker"] }
  else
    { st with redis_connected := false,
              error_logs := st.error_logs ++ ["Failed to connect to Redis"],
              info_logs := st.info_logs ++ ["Falling back to in-memory message broker"] }

/-- Lines 46-55 `register_agent` (channel argument defaulted). -/
def register_agent (st : BrokerSt) (agent_id : String) : BrokerSt :=
  { st with agent_channels := aupdate st.agent_channels agent_id ("agent_" ++ agent_id),
            info_logs := st.info_logs ++ ["Registered agent " ++ agent_id] }

/-- Lines 90-95 `subscribe_to_channel`: both branches append the callback
to `self.subscribers[channel]`; the redis branch additionally subscribes
the pubsub connection. -/
def subscribe_to_channel (st : BrokerSt) (channel : String) (callback : Nat) : BrokerSt :=
  let st :=
    if st.redis_connected then { st with pubsub_channels := st.pubsub_channels ++ [channel] }
    else st
  { st with subscribers :=
      aupdate st.subscribers channel ((alookup st.subscribers channel).getD [] ++ [callback]) }

/-- Lines 77-82 `_publish_to_channel`: with redis the message goes out on
the wire; without, every callback registered on the channel is invoked. -/
def publish_to_channel (st : BrokerSt) (channel : String) (m : Message) : BrokerSt :=
  if st.redis_connected then
    { st with redis_published := st.redis_published ++ [(channel, m)] }
  else
    { st with delivered :=
        st.delivered ++ ((alookup st.subscribers channel).getD []).map (fun cb => (cb, m)) }

/-- Lines 84-88 `_store_message`: redis-only bounded per-pair history
(lpush + ltrim to the most recent 100). -/
def store_message (st : BrokerSt) (m : Message) : BrokerSt :=
  if st.redis_connected then
    let key := "messages:" ++ m.sender_id ++ ":" ++ ((m.receiver_id).getD "broadcast")
    { st with redis_store :=
        aupdate st.redis_store key ((m :: (alookup st.redis_store key).getD []).take 100) }
  else st

/-- Lines 66-75 `publish_message`: deliver to the receiver channel (or
broadcast when the receiver is absent), then store. -/
def publish_message (st : BrokerSt) (m : Message) : BrokerSt :=
  let channel := match m.receiver_id with
    | some rid => (alookup st.agent_channels rid).getD ("agent_" ++ rid)
    | none => "broadcast"
  store_message (publish_to_channel st channel m) m

/-- Lines 155-160 `add_task_to_queue`: with redis the task is rpushed onto
`queue:<name>`; without redis the body only makes sure
`self.subscribers[queue_name]` exists — the task itself is dropped. -/
def add_task_to_queue (st : BrokerSt) (queue_name : String) (task : Value) : BrokerSt :=
  if st.redis_connected then
    let key := "queue:" ++ queue_name
    let old := (alookup st.redis_queues key).getD []
    { st with redis_queues := aupdate st.redis_queues key (old ++ [task]) }
  else
    if (alookup st.subscribers queue_name).isNone then
      { st with subscribers := aupdate st.subscribers queue_name [] }
    else st

/-- Lines 162-167 `get_task_from_queue`: lpop with redis; the fallback path
reaches the trailing `return None` unconditionally. -/
def get_task_from_queue (st : BrokerSt) (queue_name : String) :
    Option Value × BrokerSt :=
  if st.redis_connected then
    match (alookup st.redis_queues ("queue:" ++ queue_name)).getD [] with
    | [] => (none, st)
    | v :: vs =>
        (some v, { st with redis_queues := aupdate st.redis_queues ("queue:" ++ queue_name) vs })
  else (none, st)

/-- Lines 169-172 `get_queue_length`: llen with redis, otherwise the
constant 0. -/
def get_queue_length (st : BrokerSt) (queue_name : String) : Nat :=
  if st.redis_connected then
    ((alookup st.redis_queues ("queue:" ++ queue_name)).getD []).length
  else 0

/-- Lines 183-196 `get_online_agents`: scan the redis status keys when
connected (their contents are broker-external state, passed in here);
otherwise every agent with a registered channel counts as online. -/
def get_online_agents (st : BrokerSt) (redis_online : List String) : List String :=
  if st.redis_connected then redis_online else akeys st.agent_channels

/-- Python exceptions that the embedded broker code can raise. -/
inductive PyError where
  | nameError_uuid_not_defined
deriving DecidableEq, Repr

/-- Lines 207-238 `request_response`.  Its first statement,
`correlation_id = str(uuid.uuid4())` (line 208), references the global
`uuid`, but src/communication/message_broker.py never imports `uuid`, so
every call raises `NameError: name 'uuid' is not defined` before any
subscription or publish happens.  The remainder of the function (one-shot
response listener, publish, bounded wait, `finally` unsubscribe) is
therefore unreachable. -/
def request_response (st : BrokerSt) (sender_id receiver_id : String)
    (request : List (String × Value)) (timeout : Nat) :
    Except PyError (Option Value × BrokerSt) :=
  .error .nameError_uuid_not_defined

end MessageBroker

namespace BaseAgent

/-- Runtime state of a `BaseAgent` (src/core/base_agent.py).  The ollama
client, logger and asyncio internals are outside the claims; the inbound
`message_queue` is the list of messages in arrival order and
`context_memory` holds the summarized event dicts. -/
structure Agent where
  agent_id : String
  name : String := ""
  role : String := ""
  capabilities : List AgentCapability := []
  state : AgentState := .idle
  current_task : Option Task := none
  task_history : List Task := []
  message_queue : List Message := []
  running : Bool := false
  context_memory : List (List (String × Value)) := []
  max_context_size : Nat := 10

/-- Lines 104-107 `add_to_context`: append the item, then drop the oldest
entry once the rolling log exceeds `max_context_size`. -/
def add_to_context (a : Agent) (item : List (String × Value)) : Agent :=
  let cm := a.context_memory ++ [item]
  { a with context_memory := if a.max_context_size < cm.length then cm.tail else cm }

/-- Lines 117-128 `send_message` builds the outbound message; the actual
transport hop goes through `broadcast_message`, which the deployment
(src/main.py lines 101-104) rebinds to `MessageBroker.publish_message`.
The generated uuid `message.id` is the explicit `mid` argument. -/
def build_message (a : Agent) (mid : String) (receiver_id message_type : String)
    (content : List (String × Value)) (requires_response : Bool) : Message :=
  { id := mid, sender_id := a.agent_id, receiver_id := some receiver_id,
    message_type := message_type, content := content,
    requires_response := requires_response }

/-- Lines 133-147 `wait_for_response`: repeatedly pop the inbound queue,
return the first message whose `correlation_id` equals the argument, and
requeue (at the back) every message that does not match.  When no queued
message ever matches the deadline expires and `None` is returned; that
bounded wait is modelled as one full pass over the queue.  The result pairs
the answer with the queue as the loop leaves it. -/
def wait_for_loop (cid : String) : List Message → List Message → Option Message × List Message
  | [], requeued => (none, requeued)
  | m :: ms, requeued =>
      if m.correlation_id = some cid then (some m, ms ++ requeued)
      else wait_for_loop cid ms (requeued ++ [m])

/-- Entry point of the lines 133-147 loop over the agent's current queue. -/
def wait_for_response (a : Agent) (correlation_id : String) : Option Message × Agent :=
  let (res, q) := wait_for_loop correlation_id a.message_queue []
  (res, { a with message_queue := q })

/-- Context entry written at lines 176-180 of `start_task`. -/
def task_start_entry (t : Task) : List (String × Value) :=
  [("type", .s "task_start"), ("summary", .s ("Started task: " ++ t.title)),
   ("task_id", .s t.id)]

/-- Context entry written at lines 188-193 of `start_task`. -/
def task_complete_entry (t : Task) : List (String × Value) :=
  [("type", .s "task_complete"), ("summary", .s ("Completed task: " ++ t.title)),
   ("task_id", .s t.id), ("success", .b true)]

/-- Context entry written at lines 209-214 of `start_task`. -/
def task_failed_entry (t : Task) (err : String) : List (String × Value) :=
  [("type", .s "task_failed"),
   ("summary", .s ("Failed task: " ++ t.title ++ " - " ++ err)),
   ("task_id", .s t.id), ("error", .s err)]

/-- Lines 170-229 `start_task`.  The capability-specific executor is the
pluggable seam; its outcome is the `exec` argument (`Except` models a
normal return versus a raised exception).  The function returns the agent
after the `finally` block together with the messages sent to the
Coordinator (`send_message` here has `requires_response = False`, so no
wait occurs). -/
def start_task (a : Agent) (task : Task) (exec : Except String Value)
    (now : Nat) (mid : String) : Agent × List Message :=
  let a := { a with current_task := some task, state := .working }
  let a := add_to_context a (task_start_entry task)
  let (a, task, msgs) :=
    match exec with
    | .ok result =>
        let task := { task with status := "completed", completed_at := some now,
                                result := some result }
        let a := add_to_context a (task_complete_entry task)
        let m := build_message a mid "orchestrator" "task_completed"
          [("task_id", .s task.id), ("agent_id", .s a.agent_id),
           ("result", result)] false
        (a, task, [m])
    | .error e =>
        let task := { task with status := "failed" }
        let a := add_to_context a (task_failed_entry task e)
        let m := build_message a mid "orchestrator" "task_failed"
          [("task_id", .s task.id), ("agent_id", .s a.agent_id),
           ("error", .s e)] false
        (a, task, [m])
  ({ a with task_history := a.task_history ++ [task], current_task := none,
            state := .idle }, msgs)

/-- The request message that lines 231-241 `request_assistance` send
through `send_message` with `requires_response = True`.  Note that
`send_message` never sets `correlation_id` on the request, and then waits
on `wait_for_response(message.id)`. -/
def assistance_request_message (a : Agent) (mid : String)
    (capability_needed : AgentCapability) (context : Value) : Message :=
  build_message a mid "orchestrator" "assistance_request"
    [("requesting_agent", .s a.agent_id),
     ("capability_needed", .s capability_needed.value),
     ("context", context)] true

/-- Lines 231-245 `request_assistance`, evaluated at the point where the
response wait runs over the agent's inbound queue: the reply (if any) is
the first queued message whose `correlation_id` equals the request id;
the helper result is `response.content.get("result")` when
`response.content.get("status") == "success"`, else `None`. -/
def request_assistance (a : Agent) (mid : String)
    (capability_needed : AgentCapability) (context : Value) :
    Agent × Message × Option Value :=
  let req := assistance_request_message a mid capability_needed context
  let (response, a) := wait_for_response a mid
  let result : Option Value :=
    match response with
    | some r =>
        match alookup r.content "status" with
        | some (.s "success") => alookup r.content "result"
        | _ => none
    | none => none
  (a, req, result)

end BaseAgent

namespace Orchestrator

/-- The concrete `BaseAgent` subclasses the Coordinator can spawn
(src/agents/*.py). -/
inductive AgentClass where
  | projectManager | developer | tester | uiDesigner
deriving DecidableEq, Repr

/-- The `role` each subclass constructor passes to `BaseAgent.__init__`. -/
def AgentClass.role : AgentClass → String
  | .projectManager => "project_manager"
  | .developer => "developer"
  | .tester => "tester"
  | .uiDesigner => "ui_designer"

/-- The capability list each subclass constructor passes to
`BaseAgent.__init__`. -/
def AgentClass.capabilities : AgentClass → List AgentCapability
  | .projectManager => [.project_management, .architecture]
  | .developer => [.code_generation, .code_review, .documentation]
  | .tester => [.testing, .documentation]
  | .uiDesigner => [.ui_design, .documentation]

/-- The Coordinator-side record of a spawned agent: its class (Python
`type(agent)`) and the lifecycle state the Coordinator reads and writes
(`agent.state`).  Role and capabilities are determined by the class. -/
structure AgentRec where
  cls : AgentClass
  state : AgentState
deriving DecidableEq, Repr

/-- Role of an agent record, as `agent.role`. -/
def AgentRec.role (a : AgentRec) : String := a.cls.role

/-- State of the `Orchestrator` (src/orchestration/orchestrator.py).
`published` records every `message_broker.publish_message` call in order;
`warning_logs` records `logger.warning` calls.  The broker connection and
config are outside the claims. -/
structure OrchSt where
  agents : List (String × AgentRec) := []
  agent_pool : List (String × List String) := []
  pending_tasks : List (String × Task) := []
  completed_tasks : List Task := []
  task_queue : List Task := []
  published : List Message := []
  metrics_tasks_completed : Nat := 0
  metrics_tasks_failed : Nat := 0
  metrics_agents_spawned : Nat := 0
  warning_logs : List String := []
deriving Inhabited

/-- `self.agent_pool[capability]` with the `defaultdict(list)` default. -/
def poolGet (pool : List (String × List String)) (cap : String) : List String :=
  (alookup pool cap).getD []

/-- Append an agent id to one capability pool
(`self.agent_pool[capability.value].append(agent_id)`). -/
def poolApp (pool : List (String × List String)) (cap aid : String) :
    List (String × List String) :=
  aupdate pool cap (poolGet pool cap ++ [aid])

/-- Lines 67-93 `spawn_agent` with an explicit id: construct the agent
(its constructor initializes `state = IDLE`), record it, index it under
each declared capability, register and subscribe it with the broker, start
its runtime loop, and bump the spawn metric. -/
def spawn_agent (st : OrchSt) (cls : AgentClass) (agent_id : String) : OrchSt :=
  let st := { st with agents := aupdate st.agents agent_id ⟨cls, .idle⟩ }
  let pool :=
    (cls.capabilities.map AgentCapability.value).foldl (fun p c => poolApp p c agent_id)
      st.agent_pool
  let st := { st with agent_pool := pool }
  { st with metrics_agents_spawned := st.metrics_agents_spawned + 1 }

/-- Lines 270-277 `find_agent_with_capability`, split out over the two
registry components it reads: the first id in the capability pool that is
not the excluded id and whose agent is IDLE.  (The source indexes
`self.agents[agent_id]` directly; a pool id always names a spawned agent,
so the missing-agent case is dead and mapped to a non-match.) -/
def findCap (agents : List (String × AgentRec)) (pool : List (String × List String))
    (capability : String) (exclude : Option String) : Option String :=
  (poolGet pool capability).find? fun aid =>
    (match exclude with | some e => aid ≠ e | none => true) &&
    (match alookup agents aid with | some a => a.state = .idle | none => false)

/-- Lines 270-277 `find_agent_with_capability` on the orchestrator state. -/
def find_agent_with_capability (st : OrchSt) (capability : String)
    (exclude : Option String := none) : Option String :=
  findCap st.agents st.agent_pool capability exclude

/-- Lines 333-341 `role_to_capability`: the literal role map with
CODE_GENERATION as the default. -/
def role_to_capability (role : String) : String :=
  let m : List (String × String) :=
    [("developer", AgentCapability.code_generation.value),
     ("tester", AgentCapability.testing.value),
     ("ui_designer", AgentCapability.ui_design.value),
     ("project_manager", AgentCapability.project_management.value),
     ("architect", AgentCapability.architecture.value)]
  (alookup m role).getD AgentCapability.code_generation.value

/-- Line 311 `task.metadata.get("suggested_role", "developer")`.  Metadata
entries written by this codebase are strings here; a non-string value
would fall through `role_to_capability` to the same default capability. -/
def suggestedRole (t : Task) : String :=
  match alookup t.metadata "suggested_role" with
  | some (.s r) => r
  | _ => "developer"

/-- The `task_assignment` message published at lines 322-329. -/
def assignment_message (aid : String) (t : Task) : Message :=
  { sender_id := "orchestrator", receiver_id := some aid,
    message_type := "task_assignment", content := [("task", t.dictV)] }

/-- Lines 310-331 `assign_task_to_agent`: derive the capability from task
metadata, pick the first IDLE capable agent; on success mark the task
assigned, record it in the pending map and publish one assignment message;
otherwise put the task on the deferred queue. -/
def assign_task_to_agent (st : OrchSt) (task : Task) : OrchSt :=
  match findCap st.agents st.agent_pool (role_to_capability (suggestedRole task)) none with
  | some agent_id =>
      let task := { task with assignee_id := some agent_id, status := "assigned" }
      let st := { st with pending_tasks := aupdate st.pending_tasks task.id task }
      { st with published := st.published ++ [assignment_message agent_id task] }
  | none => { st with task_queue := st.task_queue ++ [task] }

/-- Lines 219-234 `escalate_failed_task`: publish a `task_escalation`
message to the first registered agent whose role contains
"project_manager"; with no such agent nothing is published. -/
def escalate_failed_task (st : OrchSt) (task : Task) (error : String) : OrchSt :=
  let pm_agents := (st.agents.filter fun p => strContains p.2.role "project_manager").map
    Prod.fst
  match pm_agents with
  | [] => st
  | pm0 :: _ =>
      let m : Message :=
        { sender_id := "orchestrator", receiver_id := some pm0,
          message_type := "task_escalation",
          content := [("task", task.dictV), ("error", .s error),
                      ("severity", .s "high")] }
      { st with published := st.published ++ [m] }

/-- Lines 202-217 `attempt_task_recovery`, acting on the task object
aliased in `pending_tasks` (every in-place mutation is mirrored into the
map entry): initialize the `retry` counter, and below the ceiling of 3
bump it, reset the status to pending, sleep `5 * attempt` (timing is not
modelled) and reassign; otherwise escalate.  Metadata counters written by
this code are integers; any other shape would raise in Python and is dead
here. -/
def attempt_task_recovery (st : OrchSt) (task_id : String) (error : String) : OrchSt :=
  match alookup st.pending_tasks task_id with
  | none => st
  | some t =>
      let t := if (alookup t.metadata "retry").isNone then
          { t with metadata := aupdate t.metadata "retry" (.n 0) }
        else t
      let retry : Int := match alookup t.metadata "retry" with
        | some (.n k) => k
        | _ => 0
      if retry < 3 then
        let t := { t with metadata := aupdate t.metadata "retry" (.n (retry + 1)),
                          status := "pending" }
        let st := { st with pending_tasks := aupdate st.pending_tasks task_id t }
        assign_task_to_agent st t
      else
        let st := { st with pending_tasks := aupdate st.pending_tasks task_id t }
        escalate_failed_task st t error

/-- Lines 187-200 `handle_task_failed`: for a pending task, mark it
failed, bump the failure metric and run the recovery policy; reports for
unknown task ids are dropped. -/
def handle_task_failed (st : OrchSt) (task_id : String) (error : String) : OrchSt :=
  match alookup st.pending_tasks task_id with
  | none => st
  | some t =>
      let t := { t with status := "failed" }
      let st := { st with pending_tasks := aupdate st.pending_tasks task_id t }
      let st := { st with metrics_tasks_failed := st.metrics_tasks_failed + 1 }
      attempt_task_recovery st task_id error

/-- Body of the lines 302-308 loop for one snapshot entry: if the task
depends on the completed id, drop that dependency edge; when the
dependency set empties and the task was blocked, move it to pending and
re-submit it to assignment. -/
def checkStep (completed_task_id : String) (st : OrchSt) (tid : String) : OrchSt :=
  match alookup st.pending_tasks tid with
  | none => st
  | some t =>
      if completed_task_id ∈ t.dependencies then
        let t := { t with dependencies := t.dependencies.erase completed_task_id }
        let st := { st with pending_tasks := aupdate st.pending_tasks tid t }
        if t.dependencies.isEmpty && t.status = "blocked" then
          let t := { t with status := "pending" }
          let st := { st with pending_tasks := aupdate st.pending_tasks tid t }
          assign_task_to_agent st t
        else st
      else st

/-- Iteration of lines 302-308 over the snapshot
`list(self.pending_tasks.values())`, keyed by the map keys (every
reachable map entry is stored under its task id). -/
def checkLoop (completed_task_id : String) : List String → OrchSt → OrchSt
  | [], st => st
  | k :: ks, st => checkLoop completed_task_id ks (checkStep completed_task_id st k)

/-- Lines 302-308 `check_for_dependent_tasks`. -/
def check_for_dependent_tasks (st : OrchSt) (completed_task_id : String) : OrchSt :=
  checkLoop completed_task_id (akeys st.pending_tasks) st

/-- Lines 167-185 `handle_task_completed`: for a pending task, mark it
completed with timestamp and result, move it to the completed list, drop
it from the pending map and bump the metric; in every case scan for
dependent tasks afterwards. -/
def handle_task_completed (st : OrchSt) (task_id : String) (result : Option Value)
    (now : Nat) : OrchSt :=
  let st :=
    match alookup st.pending_tasks task_id with
    | none => st
    | some t =>
        let t := { t with status := "completed", completed_at := some now,
                          result := result }
        let st := { st with pending_tasks := aupdate st.pending_tasks task_id t }
        let st := { st with completed_tasks := st.completed_tasks ++ [t] }
        let st := { st with pending_tasks := aerase st.pending_tasks task_id }
        { st with metrics_tasks_completed := st.metrics_tasks_completed + 1 }
  check_for_dependent_tasks st task_id

/-- Lines 346-356 `recruit_agent_for_capability`: spawn an agent of the
class mapped from the capability (default DeveloperAgent); the follow-up
PM notification publishes a `team_member_joined` message, outside the
claims about the requester. -/
def recruit_agent_for_capability (st : OrchSt) (capability : String)
    (new_id : String) : OrchSt :=
  let m : List (String × AgentClass) :=
    [(AgentCapability.code_generation.value, .developer),
     (AgentCapability.testing.value, .tester),
     (AgentCapability.ui_design.value, .uiDesigner),
     (AgentCapability.project_management.value, .projectManager)]
  spawn_agent st ((alookup m capability).getD .developer) new_id

/-- Lines 236-268 `handle_assistance_request`: find an idle capable agent
other than the requester; if found, dispatch an ad-hoc assistance task to
it (that execution belongs to the helper agent runtime) and, when the
request demanded a reply, publish an `assistance_response` carrying
`status`, `helper_agent` and `task_id` — and the request's
`correlation_id`, which `send_message` never set.  Without a helper, the
auto-recruit policy may spawn a new agent; no reply is sent either way.
Returns the reply alongside the state for pipeline reasoning. -/
def handle_assistance_request (st : OrchSt) (message : Message)
    (assist_task_id : String) (auto_recruit : Bool) (recruit_id : String) :
    OrchSt × Option Message :=
  let requesting_agent : Option String :=
    match alookup message.content "requesting_agent" with
    | some (.s r) => some r
    | _ => none
  let capability_needed : String :=
    match alookup message.content "capability_needed" with
    | some (.s c) => c
    | _ => ""
  match find_agent_with_capability st capability_needed requesting_agent with
  | some helper_agent =>
      if message.requires_response then
        let response : Message :=
          { sender_id := "orchestrator", receiver_id := message.sender_id,
            message_type := "assistance_response",
            content := [("status", .s "success"),
                        ("helper_agent", .s helper_agent),
                        ("task_id", .s assist_task_id)],
            correlation_id := message.correlation_id }
        ({ st with published := st.published ++ [response] }, some response)
      else (st, none)
  | none =>
      if auto_recruit then
        (recruit_agent_for_capability st capability_needed recruit_id, none)
      else (st, none)

/-- Lines 430-439 `restart_agent`: stop the old instance (its own state
becomes OFFLINE and it is discarded), delete the registry entry, and spawn
a fresh instance of the same class under the same id.  The capability
pool entries of the old instance are not removed. -/
def restart_agent (st : OrchSt) (agent_id : String) : OrchSt :=
  match alookup st.agents agent_id with
  | none => st
  | some a =>
      let st := { st with agents := aerase st.agents agent_id }
      spawn_agent st a.cls agent_id

/-- Warning logged at line 423 for an apparently offline agent. -/
def offline_warning (agent_id : String) : String :=
  "Agent " ++ agent_id ++ " appears to be offline"

/-- Effect of the lines 421-424 check on one registry entry: an agent
absent from the online view and not already OFFLINE is marked OFFLINE. -/
def markEntry (online : List String) (aid : String) (a : AgentRec) : AgentRec :=
  if aid ∉ online ∧ a.state ≠ .offline then { a with state := AgentState.offline } else a

/-- First loop of lines 421-424: every registered agent absent from the
broker's online view and not already OFFLINE is warned about and marked
OFFLINE. -/
def markOffline (st : OrchSt) (online : List String) : OrchSt :=
  let warns := st.agents.filterMap fun p =>
    if p.1 ∉ online ∧ p.2.state ≠ .offline then some (offline_warning p.1) else none
  { st with agents := st.agents.map fun p => (p.1, markEntry online p.1 p.2),
            warning_logs := st.warning_logs ++ warns }

/-- Body of the second loop (lines 426-428) for one snapshot key: restart
the agent when its state is ERROR. -/
def healStep (st : OrchSt) (aid : String) : OrchSt :=
  match alookup st.agents aid with
  | some a => if a.state = .error then restart_agent st aid else st
  | none => st

/-- Iteration of lines 426-428 over the snapshot
`list(self.agents.keys())`. -/
def healLoop : List String → OrchSt → OrchSt
  | [], st => st
  | k :: ks, st => healLoop ks (healStep st k)

/-- One cycle of lines 415-428 `monitor_agent_health` (the surrounding
`while` sleeps 30 time units between cycles): cross-check the broker's
online view, mark absentees OFFLINE, then restart every agent observed in
ERROR. -/
def monitor_cycle (st : OrchSt) (online : List String) : OrchSt :=
  let st := markOffline st online
  healLoop (akeys st.agents) st

/-- Number of `task_assignment` messages published so far. -/
def countAssignments (s : OrchSt) : Nat :=
  (s.published.filter fun m => m.message_type = "task_assignment").length

/-- Receivers of the `task_escalation` messages published so far. -/
def escalation_receivers (s : OrchSt) : List (Option String) :=
  (s.published.filter fun m => m.message_type = "task_escalation").map Message.receiver_id

/-- Status of a task in the pending map. -/
def statusOf (s : OrchSt) (tid : String) : Option String :=
  (alookup s.pending_tasks tid).map Task.status

/-- Value of the `retry` metadata counter of a pending task. -/
def retryOf (s : OrchSt) (tid : String) : Option Int :=
  match alookup s.pending_tasks tid with
  | some t => match alookup t.metadata "retry" with | some (.n k) => some k | _ => none
  | none => none

/-- A Coordinator with the default initial team members relevant here: a
project manager and one developer, both IDLE. -/
def pm_dev_team : OrchSt :=
  spawn_agent (spawn_agent {} .projectManager "pm-001") .developer "dev-001"

/-- The task whose executor always fails in the retry scenario. -/
def retry_task : Task := { id := "T1", title := "Build X" }

/-- Orchestrator state after the initial assignment of `retry_task`. -/
def retry_assigned : OrchSt := assign_task_to_agent pm_dev_team retry_task

/-- Apply `n` consecutive `task_failed` reports for `retry_task` (the
always-failing executor reports failure after every assignment). -/
def failN : Nat → OrchSt → OrchSt
  | 0, s => s
  | n + 1, s => failN n (handle_task_failed s "T1" "executor failure")

end Orchestrator

section AssocLemmas

theorem alookup_aupdate_self {α : Type} (l : List (String × α)) (k : String) (v : α) :
    alookup (aupdate l k v) k = some v := by
  induction l with
  | nil => simp [aupdate, alookup]
  | cons p ps ih =>
      by_cases h : p.1 = k
      · simp [aupdate, alookup, h]
      · simp [aupdate, alookup, h, ih]

theorem alookup_aupdate_ne {α : Type} (l : List (String × α)) (k k' : String) (v : α)
    (h : k' ≠ k) : alookup (aupdate l k v) k' = alookup l k' := by
  induction l with
  | nil => simp [aupdate, alookup, Ne.symm h]
  | cons p ps ih =>
      by_cases hp : p.1 = k
      · subst hp
        simp [aupdate, alookup, Ne.symm h]
      · by_cases hp' : p.1 = k'
        · simp [aupdate, alookup, hp, hp', h]
        · simp [aupdate, alookup, hp, hp', ih]

theorem alookup_aerase_self {α : Type} (l : List (String × α)) (k : String) :
    alookup (aerase l k) k = none := by
  induction l with
  | nil => simp [aerase, alookup]
  | cons p ps ih =>
      by_cases h : p.1 = k
      · simp [aerase, h, ih]
      · simp [aerase, alookup, h, ih]

theorem alookup_aerase_ne {α : Type} (l : List (String × α)) (k k' : String)
    (h : k' ≠ k) : alookup (aerase l k) k' = alookup l k' := by
  induction l with
  | nil => simp [aerase]
  | cons p ps ih =>
      by_cases hp : p.1 = k
      · subst hp
        simp [aerase, alookup, Ne.symm h, ih]
      · simp [aerase, alookup, hp, ih]

theorem alookup_mem {α : Type} {l : List (String × α)} {k : String} {v : α}
    (h : alookup l k = some v) : (k, v) ∈ l := by
  induction l with
  | nil => simp [alookup] at h
  | cons p ps ih =>
      rcases p with ⟨a, b⟩
      by_cases hp : a = k
      · subst hp
        simp [alookup] at h
        subst h
        exact List.mem_cons_self _ _
      · simp [alookup, hp] at h
        exact List.mem_cons_of_mem _ (ih h)

theorem alookup_isSome_iff_mem_akeys {α : Type} (l : List (String × α)) (k : String) :
    (alookup l k).isSome ↔ k ∈ akeys l := by
  induction l with
  | nil => simp [alookup, akeys]
  | cons p ps ih =>
      by_cases hp : p.1 = k
      · simp [alookup, akeys, hp]
      · simp [alookup, akeys, hp, ih, Ne.symm hp]

theorem akeys_aupdate_of_mem {α : Type} (l : List (String × α)) (k : String) (v : α)
    (h : k ∈ akeys l) : akeys (aupdate l k v) = akeys l := by
  induction l with
  | nil => simp [akeys] at h
  | cons p ps ih =>
      by_cases hp : p.1 = k
      · simp [aupdate, akeys, hp]
      · have h' : k ∈ akeys ps := by
          simp [akeys] at h ⊢
          rcases h with h | h
          · exact absurd h.symm hp
          · exact h
        have := ih h'
        simp [aupdate, akeys, hp] at this ⊢
        exact this

theorem akeys_aerase_sub {α : Type} (l : List (String × α)) (k : String) :
    List.Sublist (akeys (aerase l k)) (akeys l) := by
  induction l with
  | nil => simp [aerase, akeys]
  | cons p ps ih =>
      by_cases hp : p.1 = k
      · simp only [aerase, hp, if_pos]
        exact ih.trans (List.sublist_cons_self _ _)
      · simp only [aerase, hp, if_neg, akeys, List.map_cons, ite_false]
        exact List.Sublist.cons₂ _ ih

theorem not_mem_akeys_aerase {α : Type} (l : List (String × α)) (k : String) :
    k ∉ akeys (aerase l k) := by
  induction l with
  | nil => simp [aerase, akeys]
  | cons p ps ih =>
      by_cases hp : p.1 = k
      · simpa [aerase, hp] using ih
      · simp only [aerase, hp, if_neg, akeys, List.map_cons, List.mem_cons, ite_false]
        push_neg
        refine ⟨fun h => hp h.symm, ?_⟩
        simpa [akeys] using ih

end AssocLemmas

namespace Claims

open MessageBroker Orchestrator BaseAgent

/-- C1.  The claim as frozen: with an always-failing executor, after the
3rd failure the status is `escalated` and no 4th assignment message is
ever published.  The code disagrees on the concrete retry scenario: after
the 3rd `task_failed` report the Coordinator has published a 4th
`task_assignment` message and the task is back in status `assigned`, not
`escalated`. -/
theorem c1_counterexample :
    countAssignments (failN 3 retry_assigned) = 4 ∧
    statusOf (failN 3 retry_assigned) "T1" = some "assigned" := by
  constructor <;> rfl

/-- C1 (amended).  The Coordinator retries the failing task 3 times, so 4
`task_assignment` messages are published in total; the 4th failure
triggers a `task_escalation` message to the first project-manager agent
and publishes no further assignment, and the task status then remains
`failed` (the code never assigns the status `escalated`); a further
failure report still publishes no new assignment (no automatic retry),
though it does publish a repeated escalation. -/
theorem c1_theorem :
    countAssignments (failN 4 retry_assigned) = 4 ∧
    escalation_receivers (failN 4 retry_assigned) = [some "pm-001"] ∧
    statusOf (failN 4 retry_assigned) "T1" = some "failed" ∧
    retryOf (failN 4 retry_assigned) "T1" = some 3 ∧
    countAssignments (failN 5 retry_assigned) = 4 ∧
    escalation_receivers (failN 5 retry_assigned) = [some "pm-001", some "pm-001"] := by
  refine ⟨rfl, rfl, rfl, rfl, rfl, rfl⟩

/-- C2.  `request_response` cannot return the no-answer signal: its first
statement evaluates `uuid.uuid4()` while `uuid` is never imported in
src/communication/message_broker.py, so every call — here a concrete one
with a 1-time-unit timeout against a silent receiver — raises `NameError`
instead of subscribing, publishing, timing out or cleaning up. -/
theorem c2_theorem :
    request_response {} "agent-a" "agent-b" [("ping", .s "hello")] 1 =
      .error .nameError_uuid_not_defined := rfl

/-- C8.  The claim as frozen says the degraded queue operations still
behave as a FIFO queue in memory.  They do not: pushing one task onto a
fresh degraded broker and popping immediately yields nothing, and the
reported length is 0. -/
theorem c8_counterexample :
    (get_task_from_queue (add_task_to_queue (connect {} false) "work" (.s "task-1"))
        "work").1 = none ∧
    get_queue_length (add_task_to_queue (connect {} false) "work" (.s "task-1"))
        "work" = 0 := by
  exact ⟨rfl, rfl⟩

/-- The channel `publish_message` resolves for a message. -/
def receiver_channel (st : BrokerSt) (m : Message) : String :=
  match m.receiver_id with
  | some rid => (alookup st.agent_channels rid).getD ("agent_" ++ rid)
  | none => "broadcast"

/-- C8 (amended).  When the backing store is unreachable the Transport
degrades non-fatally: `connect` records the fallback in the logs and
clears the connection flag instead of raising; `publish_message` still
invokes every callback subscribed on the receiver channel (or broadcast
when the receiver is absent); but the degraded queue operations are
stubs — push stores nothing (it only materializes an empty subscriber
entry), pop always returns `None`, and the length is always 0. -/
theorem c8_theorem (st : BrokerSt) (m : Message) (q : String) (v : Value)
    (hdeg : st.redis_connected = false) :
    (connect st false).redis_connected = false ∧
    "Falling back to in-memory message broker" ∈ (connect st false).info_logs ∧
    (publish_message st m).delivered =
      st.delivered ++
        ((alookup st.subscribers (receiver_channel st m)).getD []).map (fun cb => (cb, m)) ∧
    (get_task_from_queue (add_task_to_queue st q v) q).1 = none ∧
    get_queue_length (add_task_to_queue st q v) q = 0 := by
  refine ⟨rfl, by simp [connect], ?_, ?_, ?_⟩
  · cases m' : m.receiver_id <;>
      simp [publish_message, publish_to_channel, store_message, receiver_channel, hdeg, m']
  · by_cases hq : (alookup st.subscribers q).isNone <;>
      simp [add_task_to_queue, get_task_from_queue, hdeg, hq]
  · by_cases hq : (alookup st.subscribers q).isNone <;>
      simp [add_task_to_queue, get_queue_length, hdeg, hq]

/-- Witness for `c8_theorem` at a concrete degraded broker with two
subscribed callbacks. -/
theorem c8_theorem_witness :
    ({ subscribers := [("agent_x", [7, 8])] } : BrokerSt).redis_connected = false ∧
    ((connect ({ subscribers := [("agent_x", [7, 8])] } : BrokerSt) false).redis_connected = false ∧
     "Falling back to in-memory message broker" ∈
       (connect ({ subscribers := [("agent_x", [7, 8])] } : BrokerSt) false).info_logs ∧
     (publish_message ({ subscribers := [("agent_x", [7, 8])] } : BrokerSt)
        { sender_id := "s", receiver_id := some "x", message_type := "hi", content := [] }).delivered =
       [] ++ ((alookup [("agent_x", [7, 8])]
            (receiver_channel ({ subscribers := [("agent_x", [7, 8])] } : BrokerSt)
              { sender_id := "s", receiver_id := some "x", message_type := "hi", content := [] })).getD []).map
          (fun cb => (cb, { sender_id := "s", receiver_id := some "x", message_type := "hi", content := [] })) ∧
     (get_task_from_queue
        (add_task_to_queue ({ subscribers := [("agent_x", [7, 8])] } : BrokerSt) "work" (.s "t"))
        "work").1 = none ∧
     get_queue_length
        (add_task_to_queue ({ subscribers := [("agent_x", [7, 8])] } : BrokerSt) "work" (.s "t"))
        "work" = 0) :=
  ⟨rfl, c8_theorem { subscribers := [("agent_x", [7, 8])] }
    { sender_id := "s", receiver_id := some "x", message_type := "hi", content := [] }
    "work" (.s "t") rfl⟩

/-- C10.  The claim as frozen: capability pools stay duplicate-free across
`spawn_agent` and `restart_agent`.  Restarting a freshly spawned developer
leaves its id twice in the `code_generation` pool. -/
theorem c10_counterexample :
    (poolGet (restart_agent (spawn_agent {} .developer "dev-1") "dev-1").agent_pool
        "code_generation").count "dev-1" = 2 := by
  rfl

theorem poolGet_poolApp_self (p : List (String × List String)) (c a : String) :
    poolGet (poolApp p c a) c = poolGet p c ++ [a] := by
  simp [poolApp, poolGet, alookup_aupdate_self]

theorem poolGet_poolApp_ne (p : List (String × List String)) (c c' a : String)
    (h : c' ≠ c) : poolGet (poolApp p c a) c' = poolGet p c' := by
  simp [poolApp, poolGet, alookup_aupdate_ne _ _ _ _ h]

theorem poolGet_foldApp (a : String) :
    ∀ (caps : List String) (p : List (String × List String)) (cap : String),
      caps.Nodup →
      poolGet (caps.foldl (fun q c => poolApp q c a) p) cap =
        (if cap ∈ caps then poolGet p cap ++ [a] else poolGet p cap) := by
  intro caps
  induction caps with
  | nil => simp
  | cons c cs ih =>
      intro p cap hnd
      rcases List.nodup_cons.mp hnd with ⟨hc, hcs⟩
      by_cases hcap : cap = c
      · subst hcap
        simp only [List.foldl_cons, ih _ _ hcs, if_neg hc, List.mem_cons, true_or, if_pos]
        exact poolGet_poolApp_self p cap a
      · simp only [List.foldl_cons, ih _ _ hcs, List.mem_cons]
        by_cases hm : cap ∈ cs
        · simp [hm, hcap, poolGet_poolApp_ne p c cap a hcap]
        · simp [hm, hcap, poolGet_poolApp_ne p c cap a hcap]

theorem cls_caps_nodup (cls : AgentClass) :
    (cls.capabilities.map AgentCapability.value).Nodup := by
  cases cls <;> decide

theorem spawn_agent_poolGet (st : OrchSt) (cls : AgentClass) (aid : String) (cap : String) :
    poolGet (spawn_agent st cls aid).agent_pool cap =
      (if cap ∈ cls.capabilities.map AgentCapability.value
       then poolGet st.agent_pool cap ++ [aid] else poolGet st.agent_pool cap) := by
  exact poolGet_foldApp aid _ st.agent_pool cap (cls_caps_nodup cls)

/-- C10 (amended).  Spawning an agent whose id is in no capability pool
preserves per-capability uniqueness, but `restart_agent` re-appends the
restarted id to each of its capability pools without removing the stale
entry, so each such pool gains one more copy of the id. -/
theorem c10_theorem (st : OrchSt) (cls : AgentClass) (aid : String) (a : AgentRec)
    (cap : String)
    (hfresh : ∀ c, aid ∉ poolGet st.agent_pool c)
    (hnd : ∀ c, (poolGet st.agent_pool c).Nodup)
    (ha : alookup st.agents aid = some a)
    (hcap : cap ∈ a.cls.capabilities.map AgentCapability.value) :
    (∀ c, (poolGet (spawn_agent st cls aid).agent_pool c).Nodup) ∧
    (poolGet (restart_agent st aid).agent_pool cap).count aid =
      (poolGet st.agent_pool cap).count aid + 1 := by
  constructor
  · intro c
    rw [spawn_agent_poolGet]
    by_cases hm : c ∈ cls.capabilities.map AgentCapability.value
    · simp only [hm, if_pos]
      exact List.Nodup.append (hnd c) (List.nodup_singleton aid)
        (by simpa using fun h => hfresh c h)
    · simpa [hm] using hnd c
  · have hpool : (restart_agent st aid).agent_pool =
        (spawn_agent { st with agents := aerase st.agents aid } a.cls aid).agent_pool := by
      simp [restart_agent, ha]
    rw [hpool, spawn_agent_poolGet]
    simp [hcap, List.count_append]

/-- Witness for `c10_theorem`: a registry holding one developer record
whose id is not yet indexed in any pool. -/
theorem c10_theorem_witness :
    (∀ c, (poolGet (spawn_agent
        { agents := [("dev-1", ⟨.developer, .idle⟩)] } .developer "dev-1").agent_pool c).Nodup) ∧
    (poolGet (restart_agent ({ agents := [("dev-1", ⟨.developer, .idle⟩)] } : OrchSt)
        "dev-1").agent_pool "code_generation").count "dev-1" =
      (poolGet ({ agents := [("dev-1", ⟨.developer, .idle⟩)] } : OrchSt).agent_pool
        "code_generation").count "dev-1" + 1 :=
  c10_theorem { agents := [("dev-1", ⟨.developer, .idle⟩)] } .developer "dev-1"
    ⟨.developer, .idle⟩ "code_generation"
    (by intro c; simp [poolGet, alookup]) (by intro c; simp [poolGet, alookup])
    (by rfl) (by decide)

theorem add_to_context_getLast (a : Agent) (i : List (String × Value))
    (h : 1 ≤ a.max_context_size) :
    (add_to_context a i).context_memory.getLast? = some i := by
  show (if a.max_context_size < (a.context_memory ++ [i]).length
      then (a.context_memory ++ [i]).tail else a.context_memory ++ [i]).getLast? = some i
  by_cases hlen : a.max_context_size < (a.context_memory ++ [i]).length
  · rw [if_pos hlen]
    cases cm : a.context_memory with
    | nil =>
        rw [cm] at hlen
        simp at hlen
        omega
    | cons c cs =>
        simp [List.getLast?_concat]
  · rw [if_neg hlen]
    exact List.getLast?_concat _

theorem add_to_context_max (a : Agent) (i : List (String × Value)) :
    (add_to_context a i).max_context_size = a.max_context_size := rfl

/-- C3.  Whatever the executor outcome — normal result or raised
exception — `start_task` leaves the agent with the task appended to its
local history, no active task, state IDLE, a summarized entry for the task
at the end of the rolling context log, and exactly one message addressed
to the Coordinator whose type is `task_completed` on success and
`task_failed` on fault. -/
theorem c3_theorem (a : Agent) (t : Task) (exec : Except String Value) (now : Nat)
    (mid : String) (hmax : 1 ≤ a.max_context_size) :
    (start_task a t exec now mid).1.current_task = none ∧
    (start_task a t exec now mid).1.state = .idle ∧
    (start_task a t exec now mid).1.task_history.map Task.id =
      a.task_history.map Task.id ++ [t.id] ∧
    (∃ e, (start_task a t exec now mid).1.context_memory.getLast? = some e ∧
      alookup e "task_id" = some (.s t.id)) ∧
    (start_task a t exec now mid).2.map Message.receiver_id = [some "orchestrator"] ∧
    (start_task a t exec now mid).2.map Message.message_type =
      [match exec with | .ok _ => "task_completed" | .error _ => "task_failed"] := by
  cases exec with
  | ok v =>
      refine ⟨rfl, rfl, by simp [start_task, add_to_context], ?_, rfl, rfl⟩
      refine ⟨task_complete_entry { t with status := "completed", completed_at := some now, result := some v }, ?_, ?_⟩
      · exact add_to_context_getLast _ _ hmax
      · simp [task_complete_entry, alookup]
  | error e =>
      refine ⟨rfl, rfl, by simp [start_task, add_to_context], ?_, rfl, rfl⟩
      refine ⟨task_failed_entry { t with status := "failed" } e, ?_, ?_⟩
      · exact add_to_context_getLast _ _ hmax
      · simp [task_failed_entry, alookup]

/-- Witness for `c3_theorem`: a fresh agent (constructor context bound 10)
running a concrete task with a failing executor. -/
theorem c3_theorem_witness :
    1 ≤ ({ agent_id := "dev-001" } : Agent).max_context_size ∧
    ((start_task { agent_id := "dev-001" } { id := "T1", title := "Build X" }
        (.error "boom") 3 "m-1").1.state = .idle ∧
     (start_task { agent_id := "dev-001" } { id := "T1", title := "Build X" }
        (.error "boom") 3 "m-1").2.map Message.message_type = ["task_failed"]) := by
  refine ⟨by decide, ?_, ?_⟩
  · exact (c3_theorem { agent_id := "dev-001" } { id := "T1", title := "Build X" }
      (.error "boom") 3 "m-1" (by decide)).2.1
  · exact (c3_theorem { agent_id := "dev-001" } { id := "T1", title := "Build X" }
      (.error "boom") 3 "m-1" (by decide)).2.2.2.2.2

theorem find_first {α : Type} (p : α → Bool) :
    ∀ (l : List α) (a : α), l.find? p = some a →
      ∃ l1 l2, l = l1 ++ a :: l2 ∧ p a = true ∧ ∀ x ∈ l1, p x = false := by
  intro l
  induction l with
  | nil => intro a h; simp [List.find?] at h
  | cons x xs ih =>
      intro a h
      by_cases hx : p x
      · rw [List.find?_cons_of_pos _ hx] at h
        obtain rfl : x = a := by injection h
        exact ⟨[], xs, rfl, hx, by simp⟩
      · rw [List.find?_cons_of_neg _ (by simpa using hx)] at h
        obtain ⟨l1, l2, hsplit, hpa, hpre⟩ := ih a h
        refine ⟨x :: l1, l2, by simp [hsplit], hpa, ?_⟩
        intro y hy
        rcases List.mem_cons.mp hy with rfl | hy'
        · simpa using hx
        · exact hpre y hy'

/-- C6.  `assign_task_to_agent` derives the capability from the task
metadata and picks the first IDLE agent in that capability pool; on a hit
the task is recorded assigned to that agent in the pending set and exactly
one `task_assignment` message to that agent is published; on a miss the
task goes to the deferred queue and the pending set and published list are
untouched. -/
theorem c6_theorem (st : OrchSt) (t : Task) :
    (∀ aid, find_agent_with_capability st (role_to_capability (suggestedRole t)) none =
        some aid →
      (∃ l1 l2, poolGet st.agent_pool (role_to_capability (suggestedRole t)) =
          l1 ++ aid :: l2 ∧
        (alookup st.agents aid).map AgentRec.state = some .idle ∧
        ∀ x ∈ l1, ¬ (alookup st.agents x).map AgentRec.state = some .idle) ∧
      alookup (assign_task_to_agent st t).pending_tasks t.id =
        some { t with assignee_id := some aid, status := "assigned" } ∧
      (assign_task_to_agent st t).published = st.published ++
        [assignment_message aid { t with assignee_id := some aid, status := "assigned" }] ∧
      (assign_task_to_agent st t).task_queue = st.task_queue) ∧
    (find_agent_with_capability st (role_to_capability (suggestedRole t)) none = none →
      (assign_task_to_agent st t).task_queue = st.task_queue ++ [t] ∧
      (assign_task_to_agent st t).pending_tasks = st.pending_tasks ∧
      (assign_task_to_agent st t).published = st.published) := by
  constructor
  · intro aid hfind
    have hf' : findCap st.agents st.agent_pool
        (role_to_capability (suggestedRole t)) none = some aid := hfind
    refine ⟨?_, ?_, ?_, ?_⟩
    · obtain ⟨l1, l2, hsplit, hpa, hpre⟩ :=
        find_first _ _ aid (by simpa [find_agent_with_capability, findCap] using hfind)
      refine ⟨l1, l2, hsplit, ?_, ?_⟩
      · cases hA : alookup st.agents aid with
        | none => rw [hA] at hpa; simp at hpa
        | some arec =>
            rw [hA] at hpa
            simp only [Bool.true_and] at hpa
            simp only [hA, Option.map]
            exact congrArg some (of_decide_eq_true hpa)
      · intro x hx
        have hx' := hpre x hx
        cases hA : alookup st.agents x with
        | none => simp [hA]
        | some arec =>
            rw [hA] at hx'
            simp only [Bool.true_and] at hx'
            simp only [hA, Option.map, Option.some_inj]
            exact of_decide_eq_false hx'
    · simp [assign_task_to_agent, hf', alookup_aupdate_self]
    · simp [assign_task_to_agent, hf']
    · simp [assign_task_to_agent, hf']
  · intro hfind
    have hf' : findCap st.agents st.agent_pool
        (role_to_capability (suggestedRole t)) none = none := hfind
    refine ⟨?_, ?_, ?_⟩ <;> simp [assign_task_to_agent, hf']

/-- Witness for `c6_theorem`: both branches at concrete states — the
default team assigns to the first idle developer, and a team with no
testing-capable agent defers a testing task to the queue. -/
theorem c6_theorem_witness :
    (alookup (assign_task_to_agent pm_dev_team retry_task).pending_tasks "T1" =
      some { retry_task with assignee_id := some "dev-001", status := "assigned" } ∧
     (assign_task_to_agent pm_dev_team retry_task).task_queue = [] ∧
     (assign_task_to_agent pm_dev_team
        { id := "T2", metadata := [("suggested_role", .s "tester")] }).task_queue =
       [{ id := "T2", metadata := [("suggested_role", .s "tester")] }]) := by
  refine ⟨?_, ?_, ?_⟩
  · exact ((c6_theorem pm_dev_team retry_task).1 "dev-001" (by rfl)).2.1
  · exact ((c6_theorem pm_dev_team retry_task).1 "dev-001" (by rfl)).2.2.2
  · exact (((c6_theorem pm_dev_team
      { id := "T2", metadata := [("suggested_role", .s "tester")] }).2 (by rfl)).1).trans
      (by rfl)

/-- Orchestrator with one idle developer and one idle tester, for the
assistance scenario. -/
def c7_orch : OrchSt := spawn_agent (spawn_agent {} .developer "dev-001") .tester "qa-001"

/-- The requesting developer agent runtime. -/
def c7_dev : Agent :=
  { agent_id := "dev-001", name := "Developer", role := "developer",
    capabilities := [.code_generation, .code_review, .documentation] }

/-- The request that `request_assistance` publishes (uuid "req-1"). -/
def c7_req : Message := assistance_request_message c7_dev "req-1" .testing (.s "need tests")

/-- The Coordinator handling of the request (helper exists, reply sent). -/
def c7_handled : OrchSt × Option Message := handle_assistance_request c7_orch c7_req "assist-1" false ""

/-- The published assistance reply. -/
def c7_reply : Message := (c7_handled.2).getD { sender_id := "", message_type := "", content := [] }

/-- What `request_assistance` returns once the reply sits in the
requester's inbound queue. -/
def c7_result : Option Value :=
  (request_assistance { c7_dev with message_queue := [c7_reply] } "req-1" .testing
    (.s "need tests")).2.2

theorem alookup_map_entry {α : Type} (g : String → α → α) :
    ∀ (l : List (String × α)) (k : String),
      alookup (l.map fun p => (p.1, g p.1 p.2)) k = (alookup l k).map (g k) := by
  intro l
  induction l with
  | nil => intro k; simp [alookup]
  | cons p ps ih =>
      intro k
      by_cases hp : p.1 = k
      · subst hp
        simp [alookup]
      · simp [alookup, hp, ih]

theorem akeys_map_entry {α : Type} (g : String → α → α) (l : List (String × α)) :
    akeys (l.map fun p => (p.1, g p.1 p.2)) = akeys l := by
  induction l with
  | nil => rfl
  | cons p ps ih => simp [akeys]

theorem spawn_agents_eq (st : OrchSt) (cls : AgentClass) (aid : String) :
    (spawn_agent st cls aid).agents = aupdate st.agents aid ⟨cls, .idle⟩ := rfl

theorem restart_lookup_self (st : OrchSt) (aid : String) (a : AgentRec)
    (ha : alookup st.agents aid = some a) :
    alookup (restart_agent st aid).agents aid = some ⟨a.cls, .idle⟩ := by
  simp only [restart_agent, ha, spawn_agents_eq]
  exact alookup_aupdate_self _ _ _

theorem restart_lookup_ne (st : OrchSt) (aid k : String) (h : k ≠ aid) :
    alookup (restart_agent st aid).agents k = alookup st.agents k := by
  cases ha : alookup st.agents aid with
  | none => simp [restart_agent, ha]
  | some a =>
      simp only [restart_agent, ha, spawn_agents_eq]
      rw [alookup_aupdate_ne _ _ _ _ h, alookup_aerase_ne _ _ _ h]

theorem healStep_lookup_ne (st : OrchSt) (aid k : String) (h : k ≠ aid) :
    alookup (healStep st aid).agents k = alookup st.agents k := by
  cases ha : alookup st.agents aid with
  | none => simp [healStep, ha]
  | some a =>
      by_cases he : a.state = .error
      · simp only [healStep, ha, he, if_pos]
        exact restart_lookup_ne st aid k h
      · simp [healStep, ha, he]

theorem healStep_lookup_self (st : OrchSt) (aid : String) (a : AgentRec)
    (ha : alookup st.agents aid = some a) :
    alookup (healStep st aid).agents aid =
      some (if a.state = .error then ⟨a.cls, .idle⟩ else a) := by
  by_cases he : a.state = .error
  · simp only [healStep, ha, he, if_pos]
    exact restart_lookup_self st aid a ha
  · simp [healStep, ha, he]

theorem healStep_warning (st : OrchSt) (aid : String) :
    (healStep st aid).warning_logs = st.warning_logs := by
  cases ha : alookup st.agents aid with
  | none => simp [healStep, ha]
  | some a =>
      by_cases he : a.state = .error
      · cases hb : alookup st.agents aid <;>
          simp_all [healStep, restart_agent, spawn_agent]
      · simp [healStep, ha, he]

theorem healLoop_frame (k : String) :
    ∀ (ks : List String) (st : OrchSt), k ∉ ks →
      alookup (healLoop ks st).agents k = alookup st.agents k := by
  intro ks
  induction ks with
  | nil => intro st h; rfl
  | cons j js ih =>
      intro st h
      have hk : k ≠ j := fun hkj => h (hkj ▸ List.mem_cons_self _ _)
      have hks : k ∉ js := fun hm => h (List.mem_cons_of_mem _ hm)
      rw [healLoop, ih _ hks, healStep_lookup_ne _ _ _ hk]

theorem healLoop_warning :
    ∀ (ks : List String) (st : OrchSt),
      (healLoop ks st).warning_logs = st.warning_logs := by
  intro ks
  induction ks with
  | nil => intro st; rfl
  | cons j js ih => intro st; rw [healLoop, ih, healStep_warning]

theorem healStep_lookup_det (s1 s2 : OrchSt) (k : String)
    (h : alookup s1.agents k = alookup s2.agents k) :
    alookup (healStep s1 k).agents k = alookup (healStep s2 k).agents k := by
  cases ha : alookup s1.agents k with
  | none =>
      rw [ha] at h
      simp [healStep, ha, ← h]
  | some a =>
      rw [ha] at h
      by_cases he : a.state = .error
      · simp only [healStep, ha, ← h, he, if_pos]
        rw [restart_lookup_self s1 k a ha, restart_lookup_self s2 k a h.symm]
      · simp [healStep, ha, ← h, he]

theorem healLoop_visit (k : String) :
    ∀ (ks : List String) (st : OrchSt), ks.Nodup → k ∈ ks →
      alookup (healLoop ks st).agents k = alookup (healStep st k).agents k := by
  intro ks
  induction ks with
  | nil => intro st _ h; simp at h
  | cons j js ih =>
      intro st hnd hm
      rcases List.nodup_cons.mp hnd with ⟨hj, hjs⟩
      by_cases hk : k = j
      · subst hk
        rw [healLoop, healLoop_frame k js _ hj]
      · have hks : k ∈ js := by
          rcases List.mem_cons.mp hm with h | h
          · exact absurd h hk
          · exact h
        rw [healLoop, ih _ hjs hks]
        exact healStep_lookup_det _ _ _ (healStep_lookup_ne st j k hk)

theorem markOffline_lookup (st : OrchSt) (online : List String) (k : String) :
    alookup (markOffline st online).agents k =
      (alookup st.agents k).map (markEntry online k) := by
  exact alookup_map_entry (markEntry online) st.agents k

theorem markOffline_akeys (st : OrchSt) (online : List String) :
    akeys (markOffline st online).agents = akeys st.agents := by
  exact akeys_map_entry (markEntry online) st.agents

/-- Registry with one developer forced into ERROR state. -/
def c9_err_state : OrchSt :=
  let s := spawn_agent {} .developer "dev-1"
  { s with agents := aupdate s.agents "dev-1" ⟨.developer, .error⟩ }

/-- C9.  The claim as frozen says every agent in ERROR state is replaced
within the cycle by a fresh IDLE instance.  When the ERROR agent is also
absent from the Transport's online view, the first monitor pass marks it
OFFLINE before the restart pass looks for ERROR states, so it is never
replaced: after the cycle it sits OFFLINE and no spawn happened. -/
theorem c9_counterexample :
    (alookup (monitor_cycle c9_err_state []).agents "dev-1").map AgentRec.state =
      some .offline ∧
    (monitor_cycle c9_err_state []).metrics_agents_spawned =
      c9_err_state.metrics_agents_spawned :=
  ⟨rfl, rfl⟩

/-- C9 (amended).  In one monitor cycle: every registered agent absent
from the Transport's online set and not already OFFLINE is marked OFFLINE
and a warning naming it is logged; and every agent observed in ERROR that
is still in the online set (so that the offline pass leaves it alone) is
stopped and replaced by a fresh instance of the same class under the same
id, whose state is IDLE. -/
theorem c9_theorem (st : OrchSt) (online : List String) (aid : String) (a : AgentRec)
    (hnd : (akeys st.agents).Nodup)
    (ha : alookup st.agents aid = some a) :
    (aid ∉ online ∧ a.state ≠ .offline →
      alookup (monitor_cycle st online).agents aid =
        some { a with state := AgentState.offline } ∧
      offline_warning aid ∈ (monitor_cycle st online).warning_logs) ∧
    (a.state = .error ∧ aid ∈ online →
      alookup (monitor_cycle st online).agents aid = some ⟨a.cls, .idle⟩) := by
  have hmark : alookup (markOffline st online).agents aid =
      some (markEntry online aid a) := by
    rw [markOffline_lookup, ha]
    rfl
  have hnd' : (akeys (markOffline st online).agents).Nodup := by
    rw [markOffline_akeys]; exact hnd
  have hmem : aid ∈ akeys (markOffline st online).agents := by
    rw [← alookup_isSome_iff_mem_akeys, hmark]
    rfl
  constructor
  · intro ⟨hon, hoff⟩
    have hentry : markEntry online aid a = { a with state := AgentState.offline } := by
      simp [markEntry, hon, hoff]
    constructor
    · rw [monitor_cycle, healLoop_visit aid _ _ hnd' hmem,
        healStep_lookup_self _ _ _ hmark, hentry]
      simp
    · rw [monitor_cycle, healLoop_warning]
      simp only [markOffline]
      refine List.mem_append.mpr (Or.inr ?_)
      refine List.mem_filterMap.mpr ⟨(aid, a), alookup_mem ha, ?_⟩
      simp [hon, hoff]
  · intro ⟨herr, hon⟩
    have hentry : markEntry online aid a = a := by
      simp [markEntry, hon]
    rw [monitor_cycle, healLoop_visit aid _ _ hnd' hmem,
      healStep_lookup_self _ _ _ hmark, hentry]
    simp [herr]

/-- Witness for `c9_theorem`: both conjuncts at concrete registries — an
idle agent that went silent is marked OFFLINE with a warning, and an
ERROR agent still online is replaced by an IDLE instance. -/
theorem c9_theorem_witness :
    (alookup (monitor_cycle (spawn_agent {} .developer "dev-1") []).agents "dev-1" =
      some ⟨.developer, .offline⟩ ∧
     offline_warning "dev-1" ∈
       (monitor_cycle (spawn_agent {} .developer "dev-1") []).warning_logs) ∧
    alookup (monitor_cycle c9_err_state ["dev-1"]).agents "dev-1" =
      some ⟨.developer, .idle⟩ := by
  constructor
  · exact (c9_theorem (spawn_agent {} .developer "dev-1") [] "dev-1"
      ⟨.developer, .idle⟩ (by decide) (by rfl)).1 (by decide)
  · exact (c9_theorem c9_err_state ["dev-1"] "dev-1" ⟨.developer, .error⟩
      (by decide) (by rfl)).2 (by decide)

/-- Every pending-map entry is stored under its task id (true in every
reachable Coordinator state: insertions use `task.id` as the key). -/
def IdKeys (l : List (String × Task)) : Prop := ∀ p ∈ l, p.2.id = p.1

/-- Every pending task's dependency list is duplicate-free (the spec data
model makes dependencies a set). -/
def DepsNodup (l : List (String × Task)) : Prop := ∀ p ∈ l, p.2.dependencies.Nodup

theorem idKeys_aupdate {l : List (String × Task)} {k : String} {t : Task}
    (h : IdKeys l) (ht : t.id = k) : IdKeys (aupdate l k t) := by
  induction l with
  | nil => intro p hp; simp [aupdate] at hp; simp [hp, ht]
  | cons q qs ih =>
      intro p hp
      by_cases hq : q.1 = k
      · simp only [aupdate, hq, if_pos] at hp
        rcases List.mem_cons.mp hp with rfl | hp'
        · exact ht
        · exact h p (List.mem_cons_of_mem _ hp')
      · simp only [aupdate, hq, if_neg, ite_false] at hp
        rcases List.mem_cons.mp hp with rfl | hp'
        · exact h p (List.mem_cons_self _ _)
        · exact ih (fun r hr => h r (List.mem_cons_of_mem _ hr)) p hp'

theorem idKeys_aerase {l : List (String × Task)} {k : String}
    (h : IdKeys l) : IdKeys (aerase l k) := by
  induction l with
  | nil => intro p hp; simp [aerase] at hp
  | cons q qs ih =>
      intro p hp
      by_cases hq : q.1 = k
      · simp only [aerase, hq, if_pos] at hp
        exact ih (fun r hr => h r (List.mem_cons_of_mem _ hr)) p hp
      · simp only [aerase, hq, if_neg, ite_false] at hp
        rcases List.mem_cons.mp hp with rfl | hp'
        · exact h p (List.mem_cons_self _ _)
        · exact ih (fun r hr => h r (List.mem_cons_of_mem _ hr)) p hp'

theorem depsNodup_aupdate {l : List (String × Task)} {k : String} {t : Task}
    (h : DepsNodup l) (ht : t.dependencies.Nodup) : DepsNodup (aupdate l k t) := by
  induction l with
  | nil => intro p hp; simp [aupdate] at hp; simp [hp, ht]
  | cons q qs ih =>
      intro p hp
      by_cases hq : q.1 = k
      · simp only [aupdate, hq, if_pos] at hp
        rcases List.mem_cons.mp hp with rfl | hp'
        · exact ht
        · exact h p (List.mem_cons_of_mem _ hp')
      · simp only [aupdate, hq, if_neg, ite_false] at hp
        rcases List.mem_cons.mp hp with rfl | hp'
        · exact h p (List.mem_cons_self _ _)
        · exact ih (fun r hr => h r (List.mem_cons_of_mem _ hr)) p hp'

theorem depsNodup_aerase {l : List (String × Task)} {k : String}
    (h : DepsNodup l) : DepsNodup (aerase l k) := by
  induction l with
  | nil => intro p hp; simp [aerase] at hp
  | cons q qs ih =>
      intro p hp
      by_cases hq : q.1 = k
      · simp only [aerase, hq, if_pos] at hp
        exact ih (fun r hr => h r (List.mem_cons_of_mem _ hr)) p hp
      · simp only [aerase, hq, if_neg, ite_false] at hp
        rcases List.mem_cons.mp hp with rfl | hp'
        · exact h p (List.mem_cons_self _ _)
        · exact ih (fun r hr => h r (List.mem_cons_of_mem _ hr)) p hp'

theorem idKeys_lookup {l : List (String × Task)} {k : String} {t : Task}
    (h : IdKeys l) (hl : alookup l k = some t) : t.id = k :=
  h (k, t) (alookup_mem hl)

/-- Final value of a pending entry after its `checkStep` visit, as a
function of the entry and of the (loop-invariant) agent registry and
capability pools. -/
def entryAfter (cid : String) (ag : List (String × AgentRec))
    (pool : List (String × List String)) (t : Task) : Task :=
  if cid ∈ t.dependencies then
    let t1 := { t with dependencies := t.dependencies.erase cid }
    if t1.dependencies.isEmpty && t1.status = "blocked" then
      let t2 := { t1 with status := "pending" }
      match findCap ag pool (role_to_capability (suggestedRole t2)) none with
      | some aid => { t2 with assignee_id := some aid, status := "assigned" }
      | none => t2
    else t1
  else t

/-- Tasks a `checkStep` visit appends to the deferred queue. -/
def queueDelta (cid : String) (ag : List (String × AgentRec))
    (pool : List (String × List String)) (t : Task) : List Task :=
  if cid ∈ t.dependencies then
    let t1 := { t with dependencies := t.dependencies.erase cid }
    if t1.dependencies.isEmpty && t1.status = "blocked" then
      let t2 := { t1 with status := "pending" }
      match findCap ag pool (role_to_capability (suggestedRole t2)) none with
      | some _ => []
      | none => [t2]
    else []
  else []

/-- Messages a `checkStep` visit publishes. -/
def pubDelta (cid : String) (ag : List (String × AgentRec))
    (pool : List (String × List String)) (t : Task) : List Message :=
  if cid ∈ t.dependencies then
    let t1 := { t with dependencies := t.dependencies.erase cid }
    if t1.dependencies.isEmpty && t1.status = "blocked" then
      let t2 := { t1 with status := "pending" }
      match findCap ag pool (role_to_capability (suggestedRole t2)) none with
      | some aid => [assignment_message aid { t2 with assignee_id := some aid, status := "assigned" }]
      | none => []
    else []
  else []

theorem assign_agents_pool (st : OrchSt) (t : Task) :
    (assign_task_to_agent st t).agents = st.agents ∧
    (assign_task_to_agent st t).agent_pool = st.agent_pool := by
  unfold assign_task_to_agent
  cases findCap st.agents st.agent_pool (role_to_capability (suggestedRole t)) none <;>
    exact ⟨rfl, rfl⟩

theorem checkStep_of_lookup_none (cid : String) (st : OrchSt) (k : String)
    (h : alookup st.pending_tasks k = none) : checkStep cid st k = st := by
  simp [checkStep, h]

theorem checkStep_agents_pool (cid : String) (st : OrchSt) (k : String) :
    (checkStep cid st k).agents = st.agents ∧
    (checkStep cid st k).agent_pool = st.agent_pool := by
  unfold checkStep
  cases h : alookup st.pending_tasks k with
  | none => exact ⟨rfl, rfl⟩
  | some t =>
      dsimp only
      by_cases hc : cid ∈ t.dependencies
      · rw [if_pos hc]
        by_cases hb : ((t.dependencies.erase cid).isEmpty
            && decide (t.status = "blocked")) = true
        · rw [if_pos hb]
          exact assign_agents_pool _ _
        · rw [if_neg hb]
          exact ⟨rfl, rfl⟩
      · rw [if_neg hc]
        exact ⟨rfl, rfl⟩

theorem checkStep_pend (cid : String) (st : OrchSt) (k : String) (t : Task)
    (h : alookup st.pending_tasks k = some t) (hid : t.id = k) :
    alookup (checkStep cid st k).pending_tasks k =
      some (entryAfter cid st.agents st.agent_pool t) := by
  unfold checkStep entryAfter
  rw [h]
  dsimp only
  by_cases hc : cid ∈ t.dependencies
  · rw [if_pos hc, if_pos hc]
    by_cases hb : ((t.dependencies.erase cid).isEmpty
        && decide (t.status = "blocked")) = true
    · rw [if_pos hb, if_pos hb]
      unfold assign_task_to_agent
      cases hf : findCap st.agents st.agent_pool (role_to_capability (suggestedRole { t with dependencies := t.dependencies.erase cid, status := "pending" })) none with
      | some aid =>
          rw [show ({ t with dependencies := t.dependencies.erase cid, status := "pending" } : Task).id = k from hid]
          exact alookup_aupdate_self _ _ _
      | none =>
          exact alookup_aupdate_self _ _ _
    · rw [if_neg hb, if_neg hb]
      exact alookup_aupdate_self _ _ _
  · rw [if_neg hc, if_neg hc]
    exact h

theorem checkStep_frame (cid : String) (st : OrchSt) (k k' : String)
    (hidk : IdKeys st.pending_tasks) (hk : k' ≠ k) :
    alookup (checkStep cid st k).pending_tasks k' = alookup st.pending_tasks k' := by
  unfold checkStep
  cases h : alookup st.pending_tasks k with
  | none => rfl
  | some t =>
      have hid : t.id = k := idKeys_lookup hidk h
      dsimp only
      by_cases hc : cid ∈ t.dependencies
      · rw [if_pos hc]
        by_cases hb : ((t.dependencies.erase cid).isEmpty
            && decide (t.status = "blocked")) = true
        · rw [if_pos hb]
          unfold assign_task_to_agent
          cases hf : findCap st.agents st.agent_pool (role_to_capability (suggestedRole { t with dependencies := t.dependencies.erase cid, status := "pending" })) none with
          | some aid =>
              rw [show ({ t with dependencies := t.dependencies.erase cid, status := "pending" } : Task).id = k from hid]
              rw [alookup_aupdate_ne _ _ _ _ hk, alookup_aupdate_ne _ _ _ _ hk,
                alookup_aupdate_ne _ _ _ _ hk]
          | none =>
              rw [alookup_aupdate_ne _ _ _ _ hk, alookup_aupdate_ne _ _ _ _ hk]
        · rw [if_neg hb]
          exact alookup_aupdate_ne _ _ _ _ hk
      · rw [if_neg hc]

theorem checkStep_idKeys (cid : String) (st : OrchSt) (k : String)
    (hidk : IdKeys st.pending_tasks) : IdKeys (checkStep cid st k).pending_tasks := by
  unfold checkStep
  cases h : alookup st.pending_tasks k with
  | none => exact hidk
  | some t =>
      have hid : t.id = k := idKeys_lookup hidk h
      dsimp only
      by_cases hc : cid ∈ t.dependencies
      · rw [if_pos hc]
        by_cases hb : ((t.dependencies.erase cid).isEmpty
            && decide (t.status = "blocked")) = true
        · rw [if_pos hb]
          unfold assign_task_to_agent
          cases hf : findCap st.agents st.agent_pool (role_to_capability (suggestedRole { t with dependencies := t.dependencies.erase cid, status := "pending" })) none with
          | some aid =>
              exact idKeys_aupdate (idKeys_aupdate (idKeys_aupdate hidk hid) hid) rfl
          | none =>
              exact idKeys_aupdate (idKeys_aupdate hidk hid) hid
        · rw [if_neg hb]
          exact idKeys_aupdate hidk hid
      · rw [if_neg hc]
        exact hidk

theorem checkStep_depsNodup (cid : String) (st : OrchSt) (k : String)
    (hidk : IdKeys st.pending_tasks) (hdn : DepsNodup st.pending_tasks) :
    DepsNodup (checkStep cid st k).pending_tasks := by
  unfold checkStep
  cases h : alookup st.pending_tasks k with
  | none => exact hdn
  | some t =>
      have hid : t.id = k := idKeys_lookup hidk h
      dsimp only
      have htn : t.dependencies.Nodup := hdn (k, t) (alookup_mem h)
      have hen : (t.dependencies.erase cid).Nodup := htn.erase cid
      by_cases hc : cid ∈ t.dependencies
      · rw [if_pos hc]
        by_cases hb : ((t.dependencies.erase cid).isEmpty
            && decide (t.status = "blocked")) = true
        · rw [if_pos hb]
          unfold assign_task_to_agent
          cases hf : findCap st.agents st.agent_pool (role_to_capability (suggestedRole { t with dependencies := t.dependencies.erase cid, status := "pending" })) none with
          | some aid =>
              exact depsNodup_aupdate (depsNodup_aupdate (depsNodup_aupdate hdn hen) hen) hen
          | none =>
              exact depsNodup_aupdate (depsNodup_aupdate hdn hen) hen
        · rw [if_neg hb]
          exact depsNodup_aupdate hdn hen
      · rw [if_neg hc]
        exact hdn

theorem akeys_aupdate_chain2 {l : List (String × Task)} {k : String} (v1 v2 : Task)
    (h : k ∈ akeys l) :
    akeys (aupdate (aupdate l k v1) k v2) = akeys l := by
  have h1 : akeys (aupdate l k v1) = akeys l := akeys_aupdate_of_mem _ _ _ h
  rw [akeys_aupdate_of_mem _ _ _ (h1 ▸ h), h1]

theorem akeys_aupdate_chain3 {l : List (String × Task)} {k : String} (v1 v2 v3 : Task)
    (h : k ∈ akeys l) :
    akeys (aupdate (aupdate (aupdate l k v1) k v2) k v3) = akeys l := by
  have h2 : akeys (aupdate (aupdate l k v1) k v2) = akeys l := akeys_aupdate_chain2 v1 v2 h
  rw [akeys_aupdate_of_mem _ _ _ (h2 ▸ h), h2]

theorem checkStep_akeys (cid : String) (st : OrchSt) (k : String)
    (hidk : IdKeys st.pending_tasks) :
    akeys (checkStep cid st k).pending_tasks = akeys st.pending_tasks := by
  unfold checkStep
  cases h : alookup st.pending_tasks k with
  | none => rfl
  | some t =>
      have hid : t.id = k := idKeys_lookup hidk h
      subst hid
      dsimp only
      have hmem : t.id ∈ akeys st.pending_tasks := by
        rw [← alookup_isSome_iff_mem_akeys, h]; rfl
      by_cases hc : cid ∈ t.dependencies
      · rw [if_pos hc]
        by_cases hb : ((t.dependencies.erase cid).isEmpty
            && decide (t.status = "blocked")) = true
        · rw [if_pos hb]
          unfold assign_task_to_agent
          cases hf : findCap st.agents st.agent_pool (role_to_capability (suggestedRole { t with dependencies := t.dependencies.erase cid, status := "pending" })) none with
          | some aid =>
              dsimp only
              exact akeys_aupdate_chain3 _ _ _ hmem
          | none =>
              dsimp only
              exact akeys_aupdate_chain2 _ _ hmem
        · rw [if_neg hb]
          exact akeys_aupdate_of_mem _ _ _ hmem
      · rw [if_neg hc]

theorem checkStep_queue (cid : String) (st : OrchSt) (k : String) (t : Task)
    (h : alookup st.pending_tasks k = some t) :
    (checkStep cid st k).task_queue =
      st.task_queue ++ queueDelta cid st.agents st.agent_pool t := by
  unfold checkStep queueDelta
  rw [h]
  dsimp only
  by_cases hc : cid ∈ t.dependencies
  · rw [if_pos hc, if_pos hc]
    by_cases hb : ((t.dependencies.erase cid).isEmpty
        && decide (t.status = "blocked")) = true
    · rw [if_pos hb, if_pos hb]
      unfold assign_task_to_agent
      cases hf : findCap st.agents st.agent_pool (role_to_capability (suggestedRole { t with dependencies := t.dependencies.erase cid, status := "pending" })) none with
      | some aid => simp
      | none => rfl
    · rw [if_neg hb, if_neg hb]
      simp
  · rw [if_neg hc, if_neg hc]
    simp

theorem checkStep_pub (cid : String) (st : OrchSt) (k : String) (t : Task)
    (h : alookup st.pending_tasks k = some t) :
    (checkStep cid st k).published =
      st.published ++ pubDelta cid st.agents st.agent_pool t := by
  unfold checkStep pubDelta
  rw [h]
  dsimp only
  by_cases hc : cid ∈ t.dependencies
  · rw [if_pos hc, if_pos hc]
    by_cases hb : ((t.dependencies.erase cid).isEmpty
        && decide (t.status = "blocked")) = true
    · rw [if_pos hb, if_pos hb]
      unfold assign_task_to_agent
      cases hf : findCap st.agents st.agent_pool (role_to_capability (suggestedRole { t with dependencies := t.dependencies.erase cid, status := "pending" })) none with
      | some aid => rfl
      | none => simp
    · rw [if_neg hb, if_neg hb]
      simp
  · rw [if_neg hc, if_neg hc]
    simp

theorem checkStep_queue_mono (cid : String) (st : OrchSt) (k : String) (x : Task)
    (hx : x ∈ st.task_queue) : x ∈ (checkStep cid st k).task_queue := by
  cases h : alookup st.pending_tasks k with
  | none => rw [checkStep_of_lookup_none cid st k h]; exact hx
  | some t => rw [checkStep_queue cid st k t h]; exact List.mem_append_left _ hx

theorem checkStep_pub_mono (cid : String) (st : OrchSt) (k : String) (m : Message)
    (hm : m ∈ st.published) : m ∈ (checkStep cid st k).published := by
  cases h : alookup st.pending_tasks k with
  | none => rw [checkStep_of_lookup_none cid st k h]; exact hm
  | some t => rw [checkStep_pub cid st k t h]; exact List.mem_append_left _ hm

theorem checkLoop_agents_pool (cid : String) :
    ∀ (ks : List String) (s : OrchSt),
      (checkLoop cid ks s).agents = s.agents ∧
      (checkLoop cid ks s).agent_pool = s.agent_pool := by
  intro ks
  induction ks with
  | nil => intro s; exact ⟨rfl, rfl⟩
  | cons j js ih =>
      intro s
      rw [checkLoop]
      exact ⟨(ih _).1.trans (checkStep_agents_pool cid s j).1,
        (ih _).2.trans (checkStep_agents_pool cid s j).2⟩

theorem checkLoop_idKeys (cid : String) :
    ∀ (ks : List String) (s : OrchSt), IdKeys s.pending_tasks →
      IdKeys (checkLoop cid ks s).pending_tasks := by
  intro ks
  induction ks with
  | nil => intro s h; exact h
  | cons j js ih => intro s h; exact ih _ (checkStep_idKeys cid s j h)

theorem checkLoop_depsNodup (cid : String) :
    ∀ (ks : List String) (s : OrchSt), IdKeys s.pending_tasks →
      DepsNodup s.pending_tasks → DepsNodup (checkLoop cid ks s).pending_tasks := by
  intro ks
  induction ks with
  | nil => intro s _ h; exact h
  | cons j js ih =>
      intro s hk h
      exact ih _ (checkStep_idKeys cid s j hk) (checkStep_depsNodup cid s j hk h)

theorem checkLoop_akeys (cid : String) :
    ∀ (ks : List String) (s : OrchSt), IdKeys s.pending_tasks →
      akeys (checkLoop cid ks s).pending_tasks = akeys s.pending_tasks := by
  intro ks
  induction ks with
  | nil => intro s _; rfl
  | cons j js ih =>
      intro s h
      rw [checkLoop, ih _ (checkStep_idKeys cid s j h), checkStep_akeys cid s j h]

theorem checkLoop_frame (cid k : String) :
    ∀ (ks : List String) (s : OrchSt), IdKeys s.pending_tasks → k ∉ ks →
      alookup (checkLoop cid ks s).pending_tasks k = alookup s.pending_tasks k := by
  intro ks
  induction ks with
  | nil => intro s _ _; rfl
  | cons j js ih =>
      intro s hidk hk
      have hkj : k ≠ j := fun h => hk (h ▸ List.mem_cons_self _ _)
      have hkjs : k ∉ js := fun h => hk (List.mem_cons_of_mem _ h)
      rw [checkLoop, ih _ (checkStep_idKeys cid s j hidk) hkjs,
        checkStep_frame cid s j k hidk hkj]

theorem checkLoop_queue_mono (cid : String) :
    ∀ (ks : List String) (s : OrchSt) (x : Task), x ∈ s.task_queue →
      x ∈ (checkLoop cid ks s).task_queue := by
  intro ks
  induction ks with
  | nil => intro s x h; exact h
  | cons j js ih => intro s x h; exact ih _ _ (checkStep_queue_mono cid s j x h)

theorem checkLoop_pub_mono (cid : String) :
    ∀ (ks : List String) (s : OrchSt) (m : Message), m ∈ s.published →
      m ∈ (checkLoop cid ks s).published := by
  intro ks
  induction ks with
  | nil => intro s m h; exact h
  | cons j js ih => intro s m h; exact ih _ _ (checkStep_pub_mono cid s j m h)

theorem checkLoop_visit (cid k : String) (t : Task) :
    ∀ (ks : List String) (s : OrchSt), ks.Nodup → k ∈ ks →
      IdKeys s.pending_tasks → alookup s.pending_tasks k = some t →
      alookup (checkLoop cid ks s).pending_tasks k =
        some (entryAfter cid s.agents s.agent_pool t) ∧
      (∀ x ∈ queueDelta cid s.agents s.agent_pool t,
        x ∈ (checkLoop cid ks s).task_queue) ∧
      (∀ m ∈ pubDelta cid s.agents s.agent_pool t,
        m ∈ (checkLoop cid ks s).published) := by
  intro ks
  induction ks with
  | nil => intro s _ hm; simp at hm
  | cons j js ih =>
      intro s hnd hm hidk hl
      rcases List.nodup_cons.mp hnd with ⟨hj, hjs⟩
      by_cases hk : k = j
      · subst hk
        have hid : t.id = k := idKeys_lookup hidk hl
        have hidk' : IdKeys (checkStep cid s k).pending_tasks := checkStep_idKeys cid s k hidk
        refine ⟨?_, ?_, ?_⟩
        · rw [checkLoop, checkLoop_frame cid k js _ hidk' hj,
            checkStep_pend cid s k t hl hid]
        · intro x hx
          rw [checkLoop]
          refine checkLoop_queue_mono cid js _ x ?_
          rw [checkStep_queue cid s k t hl]
          exact List.mem_append_right _ hx
        · intro m hm'
          rw [checkLoop]
          refine checkLoop_pub_mono cid js _ m ?_
          rw [checkStep_pub cid s k t hl]
          exact List.mem_append_right _ hm'
      · have hks : k ∈ js := by
          rcases List.mem_cons.mp hm with h | h
          · exact absurd h hk
          · exact h
        have hl' : alookup (checkStep cid s j).pending_tasks k = some t := by
          rw [checkStep_frame cid s j k hidk hk]; exact hl
        have hidk' : IdKeys (checkStep cid s j).pending_tasks := checkStep_idKeys cid s j hidk
        have hap := checkStep_agents_pool cid s j
        obtain ⟨ih1, ih2, ih3⟩ := ih (checkStep cid s j) hjs hks hidk' hl'
        rw [hap.1, hap.2] at ih1 ih2 ih3
        exact ⟨by rw [checkLoop]; exact ih1, by rw [checkLoop]; exact ih2,
          by rw [checkLoop]; exact ih3⟩

theorem entryAfter_deps (cid : String) (ag : List (String × AgentRec))
    (pool : List (String × List String)) (t : Task) :
    (entryAfter cid ag pool t).dependencies =
      if cid ∈ t.dependencies then t.dependencies.erase cid else t.dependencies := by
  unfold entryAfter
  by_cases hc : cid ∈ t.dependencies
  · rw [if_pos hc, if_pos hc]
    dsimp only
    by_cases hb : ((t.dependencies.erase cid).isEmpty
        && decide (t.status = "blocked")) = true
    · rw [if_pos hb]
      cases hf : findCap ag pool (role_to_capability (suggestedRole { t with dependencies := t.dependencies.erase cid, status := "pending" })) none with
      | some aid => rfl
      | none => rfl
    · rw [if_neg hb]
  · rw [if_neg hc, if_neg hc]

theorem checkStep_no_dep (cid : String) (s : OrchSt) (k : String)
    (h : ∀ t, alookup s.pending_tasks k = some t → cid ∉ t.dependencies) :
    checkStep cid s k = s := by
  cases hl : alookup s.pending_tasks k with
  | none => exact checkStep_of_lookup_none cid s k hl
  | some t =>
      unfold checkStep
      rw [hl]
      dsimp only
      rw [if_neg (h t hl)]

theorem checkLoop_no_dep (cid : String) :
    ∀ (ks : List String) (s : OrchSt),
      (∀ k t, alookup s.pending_tasks k = some t → cid ∉ t.dependencies) →
      checkLoop cid ks s = s := by
  intro ks
  induction ks with
  | nil => intro s _; rfl
  | cons j js ih =>
      intro s h
      rw [checkLoop, checkStep_no_dep cid s j (h j), ih _ h]

theorem checkLoop_clears (cid : String) :
    ∀ (ks : List String) (s : OrchSt), IdKeys s.pending_tasks →
      DepsNodup s.pending_tasks →
      (∀ k t, alookup s.pending_tasks k = some t → k ∉ ks → cid ∉ t.dependencies) →
      ∀ k t, alookup (checkLoop cid ks s).pending_tasks k = some t →
        cid ∉ t.dependencies := by
  intro ks
  induction ks with
  | nil => intro s _ _ hinv k t hl; exact hinv k t hl (by simp)
  | cons j js ih =>
      intro s hidk hdn hinv
      refine ih (checkStep cid s j) (checkStep_idKeys cid s j hidk)
        (checkStep_depsNodup cid s j hidk hdn) ?_
      intro k t hl hk
      by_cases hkj : k = j
      · subst hkj
        cases h0 : alookup s.pending_tasks k with
        | none =>
            rw [checkStep_of_lookup_none cid s k h0, h0] at hl
            exact absurd hl (by simp)
        | some t0 =>
            have hid : t0.id = k := idKeys_lookup hidk h0
            rw [checkStep_pend cid s k t0 h0 hid] at hl
            obtain rfl : entryAfter cid s.agents s.agent_pool t0 = t := by injection hl
            rw [entryAfter_deps]
            by_cases hc : cid ∈ t0.dependencies
            · rw [if_pos hc]
              have hn : t0.dependencies.Nodup := hdn (k, t0) (alookup_mem h0)
              intro hmem
              exact absurd rfl ((List.Nodup.mem_erase_iff hn).mp hmem).1
            · rw [if_neg hc]
              exact hc
      · rw [checkStep_frame cid s j k hidk hkj] at hl
        exact hinv k t hl (by simp [hkj, hk])

/-- Pending-map facts established by one `handle_task_completed` call:
afterwards the completed id is no longer a pending key and no pending task
still lists it as a dependency. -/
theorem handle_completed_clears (st : OrchSt) (tid : String) (res : Option Value)
    (now : Nat) (hidk : IdKeys st.pending_tasks) (hdn : DepsNodup st.pending_tasks) :
    tid ∉ akeys (handle_task_completed st tid res now).pending_tasks ∧
    (∀ k t, alookup (handle_task_completed st tid res now).pending_tasks k = some t →
      tid ∉ t.dependencies) := by
  unfold handle_task_completed check_for_dependent_tasks
  cases h0 : alookup st.pending_tasks tid with
  | none =>
      dsimp only
      have hnm : tid ∉ akeys st.pending_tasks := by
        intro hmem
        rw [← alookup_isSome_iff_mem_akeys, h0] at hmem
        simp at hmem
      constructor
      · rw [checkLoop_akeys tid _ _ hidk]
        exact hnm
      · exact checkLoop_clears tid _ _ hidk hdn
          (fun k t hl hk => absurd ((alookup_isSome_iff_mem_akeys _ _).mp (by rw [hl]; rfl)) hk)
  | some t =>
      dsimp only
      have hid : t.id = tid := idKeys_lookup hidk h0
      have hidk' : IdKeys (aerase (aupdate st.pending_tasks tid
          { t with status := "completed", completed_at := some now, result := res }) tid) :=
        idKeys_aerase (idKeys_aupdate hidk hid)
      have hdn' : DepsNodup (aerase (aupdate st.pending_tasks tid
          { t with status := "completed", completed_at := some now, result := res }) tid) :=
        depsNodup_aerase (depsNodup_aupdate hdn (hdn (tid, t) (alookup_mem h0)))
      have hnm : tid ∉ akeys (aerase (aupdate st.pending_tasks tid
          { t with status := "completed", completed_at := some now, result := res }) tid) :=
        not_mem_akeys_aerase _ _
      constructor
      · rw [checkLoop_akeys tid _ _ hidk']
        exact hnm
      · exact checkLoop_clears tid _ _ hidk' hdn'
          (fun k t' hl hk => absurd ((alookup_isSome_iff_mem_akeys _ _).mp (by rw [hl]; rfl)) hk)

/-- C5.  The first completion report for a task id is authoritative: after
it is processed, the id has left the pending set, and a second completion
report (or a failure report) for the same id leaves the whole Coordinator
state unchanged — in particular a completed task never re-enters
`pending`.  Hypotheses: pending entries are keyed by their task id and
dependency lists are duplicate-free, both true of every reachable state. -/
theorem c5_theorem (st : OrchSt) (tid : String) (res res' : Option Value)
    (now now' : Nat) (err : String)
    (hidk : IdKeys st.pending_tasks) (hdn : DepsNodup st.pending_tasks) :
    tid ∉ akeys (handle_task_completed st tid res now).pending_tasks ∧
    handle_task_completed (handle_task_completed st tid res now) tid res' now' =
      handle_task_completed st tid res now ∧
    handle_task_failed (handle_task_completed st tid res now) tid err =
      handle_task_completed st tid res now := by
  obtain ⟨ha, hb⟩ := handle_completed_clears st tid res now hidk hdn
  have hnone : alookup (handle_task_completed st tid res now).pending_tasks tid = none := by
    cases hl : alookup (handle_task_completed st tid res now).pending_tasks tid with
    | none => rfl
    | some t =>
        exact absurd ((alookup_isSome_iff_mem_akeys _ _).mp (by rw [hl]; rfl)) ha
  refine ⟨ha, ?_, ?_⟩
  · conv_lhs => rw [handle_task_completed]
    rw [hnone]
    dsimp only
    exact checkLoop_no_dep tid _ _ hb
  · rw [handle_task_failed, hnone]

/-- The Coordinator state after the bookkeeping block of
`handle_task_completed` (status, timestamp, result, completed list,
pending removal, metric), before the dependent-task scan. -/
def completed_mark (st : OrchSt) (task_id : String) (t : Task) (res : Option Value)
    (now : Nat) : OrchSt :=
  { st with
    pending_tasks := aerase (aupdate st.pending_tasks task_id { t with status := "completed", completed_at := some now, result := res }) task_id,
    completed_tasks := st.completed_tasks ++ [{ t with status := "completed", completed_at := some now, result := res }],
    metrics_tasks_completed := st.metrics_tasks_completed + 1 }

theorem handle_completed_eq (st : OrchSt) (tid : String) (res : Option Value) (now : Nat) :
    handle_task_completed st tid res now =
      match alookup st.pending_tasks tid with
      | none => check_for_dependent_tasks st tid
      | some t => check_for_dependent_tasks (completed_mark st tid t res now) tid := by
  unfold handle_task_completed completed_mark
  cases alookup st.pending_tasks tid <;> rfl

/-- One `handle_task_completed` call, observed at a pending entry other
than the completed id: the entry is transformed exactly by
`entryAfter`, its queued and published side effects survive to the end of
the call, and the call preserves the registry, the pools and the key
invariants. -/
theorem handle_completed_entry (st : OrchSt) (cid : String) (res : Option Value)
    (now : Nat) (k : String) (t : Task)
    (hidk : IdKeys st.pending_tasks) (hnd : (akeys st.pending_tasks).Nodup)
    (hk : k ≠ cid) (hT : alookup st.pending_tasks k = some t) :
    alookup (handle_task_completed st cid res now).pending_tasks k =
      some (entryAfter cid st.agents st.agent_pool t) ∧
    (∀ x ∈ queueDelta cid st.agents st.agent_pool t,
      x ∈ (handle_task_completed st cid res now).task_queue) ∧
    (∀ m ∈ pubDelta cid st.agents st.agent_pool t,
      m ∈ (handle_task_completed st cid res now).published) ∧
    IdKeys (handle_task_completed st cid res now).pending_tasks ∧
    (akeys (handle_task_completed st cid res now).pending_tasks).Nodup ∧
    (handle_task_completed st cid res now).agents = st.agents ∧
    (handle_task_completed st cid res now).agent_pool = st.agent_pool := by
  rw [handle_completed_eq]
  cases h0 : alookup st.pending_tasks cid with
  | none =>
      dsimp only
      unfold check_for_dependent_tasks
      have hkm : k ∈ akeys st.pending_tasks :=
        (alookup_isSome_iff_mem_akeys _ _).mp (by rw [hT]; rfl)
      obtain ⟨h1, h2, h3⟩ := checkLoop_visit cid k t (akeys st.pending_tasks) st hnd hkm hidk hT
      exact ⟨h1, h2, h3, checkLoop_idKeys cid _ _ hidk,
        by rw [checkLoop_akeys cid _ _ hidk]; exact hnd,
        (checkLoop_agents_pool cid _ _).1, (checkLoop_agents_pool cid _ _).2⟩
  | some t0 =>
      dsimp only
      unfold check_for_dependent_tasks
      have hid0 : t0.id = cid := idKeys_lookup hidk h0
      have hcm : cid ∈ akeys st.pending_tasks :=
        (alookup_isSome_iff_mem_akeys _ _).mp (by rw [h0]; rfl)
      have hpend : (completed_mark st cid t0 res now).pending_tasks =
          aerase (aupdate st.pending_tasks cid { t0 with status := "completed", completed_at := some now, result := res }) cid := rfl
      have hag : (completed_mark st cid t0 res now).agents = st.agents := rfl
      have hpool : (completed_mark st cid t0 res now).agent_pool = st.agent_pool := rfl
      have hidk' : IdKeys (completed_mark st cid t0 res now).pending_tasks := by
        rw [hpend]
        exact idKeys_aerase (idKeys_aupdate hidk hid0)
      have hnd' : (akeys (completed_mark st cid t0 res now).pending_tasks).Nodup := by
        rw [hpend]
        refine List.Nodup.sublist (akeys_aerase_sub _ _) ?_
        rw [akeys_aupdate_of_mem _ _ _ hcm]
        exact hnd
      have hT' : alookup (completed_mark st cid t0 res now).pending_tasks k = some t := by
        rw [hpend, alookup_aerase_ne _ _ _ hk, alookup_aupdate_ne _ _ _ _ hk]
        exact hT
      have hkm' : k ∈ akeys (completed_mark st cid t0 res now).pending_tasks :=
        (alookup_isSome_iff_mem_akeys _ _).mp (by rw [hT']; rfl)
      obtain ⟨h1, h2, h3⟩ := checkLoop_visit cid k t
        (akeys (completed_mark st cid t0 res now).pending_tasks)
        (completed_mark st cid t0 res now) hnd' hkm' hidk' hT'
      rw [hag, hpool] at h1 h2 h3
      exact ⟨h1, h2, h3, checkLoop_idKeys cid _ _ hidk',
        by rw [checkLoop_akeys cid _ _ hidk']; exact hnd',
        (checkLoop_agents_pool cid _ _).1.trans hag,
        (checkLoop_agents_pool cid _ _).2.trans hpool⟩

/-- Outcome of a `checkStep` visit at a blocked task whose only remaining
dependency is the completed id: the edge is dropped, the task moves to
pending, and it is either assigned (entry assigned + one message) or
deferred (entry pending + one queue element), depending on the agent
lookup. -/
theorem entryAfter_blocked_single (cid : String) (ag : List (String × AgentRec))
    (pool : List (String × List String)) (t : Task)
    (hdep : t.dependencies = [cid]) (hstat : t.status = "blocked") :
    (match findCap ag pool (role_to_capability (suggestedRole t)) none with
     | some aid =>
        entryAfter cid ag pool t =
          { t with dependencies := [], status := "assigned", assignee_id := some aid } ∧
        queueDelta cid ag pool t = [] ∧
        pubDelta cid ag pool t =
          [assignment_message aid { t with dependencies := [], status := "assigned", assignee_id := some aid }]
     | none =>
        entryAfter cid ag pool t = { t with dependencies := [], status := "pending" } ∧
        queueDelta cid ag pool t = [{ t with dependencies := [], status := "pending" }] ∧
        pubDelta cid ag pool t = []) := by
  have hc : cid ∈ t.dependencies := by rw [hdep]; exact List.mem_singleton_self _
  have he : t.dependencies.erase cid = [] := by rw [hdep]; simp
  have hb : ((t.dependencies.erase cid).isEmpty && decide (t.status = "blocked")) = true := by
    rw [he, hstat]; rfl
  unfold entryAfter queueDelta pubDelta
  rw [if_pos hc, if_pos hc, if_pos hc]
  dsimp only
  rw [if_pos hb, if_pos hb, if_pos hb]
  cases hf : findCap ag pool (role_to_capability (suggestedRole { t with dependencies := t.dependencies.erase cid, status := "pending" })) none with
  | some aid =>
      rw [show findCap ag pool (role_to_capability (suggestedRole t)) none = some aid from hf]
      dsimp only
      rw [he]
      exact ⟨rfl, rfl, rfl⟩
  | none =>
      rw [show findCap ag pool (role_to_capability (suggestedRole t)) none = none from hf]
      dsimp only
      rw [he]
      exact ⟨rfl, rfl, rfl⟩

/-- C4.  A blocked task with dependency set `{A, B}` held by the
Coordinator: completing A removes the A edge but leaves the task blocked;
completing B (the last unmet dependency) empties the dependency set and
the task transitions to pending and is re-submitted to assignment — it is
either assigned to an agent (with an assignment message published) or
placed on the deferred queue.  Hypotheses: pending entries keyed by task
id, pending keys duplicate-free (dict invariants of the source), and the
three ids distinct. -/
theorem c4_theorem (st : OrchSt) (T : Task) (A B : String) (res res' : Option Value)
    (now now' : Nat)
    (hidk : IdKeys st.pending_tasks) (hnd : (akeys st.pending_tasks).Nodup)
    (hT : alookup st.pending_tasks T.id = some T)
    (hdep : T.dependencies = [A, B]) (hstat : T.status = "blocked")
    (hAB : A ≠ B) (hTA : T.id ≠ A) (hTB : T.id ≠ B) :
    (alookup (handle_task_completed st A res now).pending_tasks T.id =
       some { T with dependencies := [B] } ∧
     ({ T with dependencies := [B] } : Task).status = "blocked") ∧
    (∃ T2, alookup (handle_task_completed (handle_task_completed st A res now) B res'
         now').pending_tasks T.id = some T2 ∧
       T2.dependencies = [] ∧
       ((∃ aid, T2.status = "assigned" ∧ T2.assignee_id = some aid ∧
           assignment_message aid T2 ∈
             (handle_task_completed (handle_task_completed st A res now) B res'
               now').published) ∨
        (T2.status = "pending" ∧
           T2 ∈ (handle_task_completed (handle_task_completed st A res now) B res'
             now').task_queue))) := by
  obtain ⟨h1look, h1q, h1pub, h1idk, h1nd, h1ag, h1pool⟩ :=
    handle_completed_entry st A res now T.id T hidk hnd hTA hT
  have hcA : A ∈ T.dependencies := by rw [hdep]; exact List.mem_cons_self _ _
  have heA : T.dependencies.erase A = [B] := by rw [hdep]; simp
  have hE1 : entryAfter A st.agents st.agent_pool T = { T with dependencies := [B] } := by
    unfold entryAfter
    rw [if_pos hcA]
    dsimp only
    rw [heA]
    have hb : (([B] : List String).isEmpty && decide (T.status = "blocked")) = false := rfl
    rw [if_neg (by rw [hb]; simp)]
  rw [hE1] at h1look
  refine ⟨⟨h1look, hstat⟩, ?_⟩
  obtain ⟨h2look, h2q, h2pub, h2idk, h2nd, h2ag, h2pool⟩ :=
    handle_completed_entry (handle_task_completed st A res now) B res' now' T.id
      { T with dependencies := [B] } h1idk h1nd hTB h1look
  rw [h1ag, h1pool] at h2look h2q h2pub
  have hsingle := entryAfter_blocked_single B st.agents st.agent_pool
    { T with dependencies := [B] } rfl hstat
  cases hf : findCap st.agents st.agent_pool
      (role_to_capability (suggestedRole { T with dependencies := [B] })) none with
  | some aid =>
      rw [hf] at hsingle
      obtain ⟨he, hqd, hpd⟩ := hsingle
      rw [he] at h2look
      refine ⟨_, h2look, rfl, Or.inl ⟨aid, rfl, rfl, ?_⟩⟩
      refine h2pub _ ?_
      rw [hpd]
      exact List.mem_singleton_self _
  | none =>
      rw [hf] at hsingle
      obtain ⟨he, hqd, hpd⟩ := hsingle
      rw [he] at h2look
      refine ⟨_, h2look, rfl, Or.inr ⟨rfl, ?_⟩⟩
      refine h2q _ ?_
      rw [hqd]
      exact List.mem_singleton_self _

/-- A blocked task waiting on tasks A and B. -/
def dep_T : Task := { id := "T", status := "blocked", dependencies := ["A", "B"] }

/-- Coordinator holding two assigned tasks A and B and the blocked task T
that depends on both, with the default team registered. -/
def dep_scenario : OrchSt :=
  { pm_dev_team with pending_tasks :=
      [("A", { id := "A", status := "assigned" }),
       ("B", { id := "B", status := "assigned" }),
       ("T", dep_T)] }

/-- Witness for `c4_theorem`: the three-task scenario above. -/
theorem c4_theorem_witness :
    (alookup (handle_task_completed dep_scenario "A" none 5).pending_tasks "T" =
       some { dep_T with dependencies := ["B"] } ∧
     ({ dep_T with dependencies := ["B"] } : Task).status = "blocked") ∧
    (∃ T2, alookup (handle_task_completed (handle_task_completed dep_scenario "A" none 5)
         "B" none 6).pending_tasks "T" = some T2 ∧
       T2.dependencies = [] ∧
       ((∃ aid, T2.status = "assigned" ∧ T2.assignee_id = some aid ∧
           assignment_message aid T2 ∈
             (handle_task_completed (handle_task_completed dep_scenario "A" none 5)
               "B" none 6).published) ∨
        (T2.status = "pending" ∧
           T2 ∈ (handle_task_completed (handle_task_completed dep_scenario "A" none 5)
             "B" none 6).task_queue))) :=
  c4_theorem dep_scenario dep_T "A" "B" none none 5 6 (by unfold IdKeys; decide)
    (by decide) rfl rfl rfl (by decide) (by decide) (by decide)

/-- Witness for `c5_theorem`: completing task A of the same scenario, then
replaying the completion and a late failure report. -/
theorem c5_theorem_witness :
    "A" ∉ akeys (handle_task_completed dep_scenario "A" none 5).pending_tasks ∧
    handle_task_completed (handle_task_completed dep_scenario "A" none 5) "A" none 6 =
      handle_task_completed dep_scenario "A" none 5 ∧
    handle_task_failed (handle_task_completed dep_scenario "A" none 5) "A" "late" =
      handle_task_completed dep_scenario "A" none 5 :=
  c5_theorem dep_scenario "A" none none 5 6 "late" (by unfold IdKeys; decide)
    (by unfold DepsNodup; decide)

/-- C7.  In the concrete scenario of the claim — an idle tester other than
the requester exists and the Coordinator's `assistance_response` is
delivered to the requester before any timeout — `request_assistance`
still returns `None`: the reply echoes the request's `correlation_id`,
which `send_message` never set (so it is `None` and can never equal the
awaited message id), and the reply content carries no `result` entry for
`response.content.get("result")` to read. -/
theorem c7_theorem :
    find_agent_with_capability c7_orch "testing" (some "dev-001") = some "qa-001" ∧
    c7_handled.2.map Message.message_type = some "assistance_response" ∧
    c7_reply.correlation_id = none ∧
    alookup c7_reply.content "result" = none ∧
    c7_result = none :=
  ⟨rfl, rfl, rfl, rfl, rfl⟩

end Claims

end DevTeam
